import Mathlib

/-!
Verification of the box2d-lite-rs collision-and-constraint core.

The Rust source stores all scalars as f32.  This development idealizes f32
as exact rational arithmetic: every literal of the source becomes the exact
rational it denotes, and arithmetic is exact.  The three transcendental
operations the source uses (cos, sin, sqrt) have no rational counterpart,
so the embedding is parametric in them via `FloatOps`; all concrete
evaluations below apply them only at argument 0, where the chosen model
returns the exact values cos 0 = 1, sin 0 = 0, sqrt 0 = 0.
-/

namespace Box2dLite

abbrev Scalar := ℚ

/-- Transcendental f32 operations, supplied as a parameter of the embedding. -/
structure FloatOps where
  cos : Scalar → Scalar
  sin : Scalar → Scalar
  sqrt : Scalar → Scalar

/-- Model of the transcendental operations used for concrete evaluation.
Concrete worlds below only call cos and sin at angle 0 and sqrt at 0,
where these are the exact values. -/
def opsRef : FloatOps where
  cos := fun _ => 1
  sin := fun _ => 0
  sqrt := fun _ => 0

/-- Rust f32::EPSILON, the machine epsilon 2 ^ (-23), used by Mat22::invert. -/
def f32Epsilon : Scalar := 1 / 8388608

/-- Rust scalar clamp: x.clamp(lo, hi). -/
def clampq (x lo hi : Scalar) : Scalar :=
  if x < lo then lo else if x > hi then hi else x

/-- math/utils.rs sign_nonzero. -/
def sign_nonzero (x : Scalar) : Scalar :=
  if x < 0 then -1 else 1

/-- math/vec2.rs Vec2. -/
structure Vec2 where
  x : Scalar
  y : Scalar
  deriving DecidableEq

namespace Vec2

def zero : Vec2 := ⟨0, 0⟩

instance : Add Vec2 := ⟨fun a b => ⟨a.x + b.x, a.y + b.y⟩⟩
instance : Sub Vec2 := ⟨fun a b => ⟨a.x - b.x, a.y - b.y⟩⟩
instance : Neg Vec2 := ⟨fun a => ⟨-a.x, -a.y⟩⟩
instance : HMul Scalar Vec2 Vec2 := ⟨fun s v => ⟨s * v.x, s * v.y⟩⟩

def dot (a b : Vec2) : Scalar := a.x * b.x + a.y * b.y

def cross (a b : Vec2) : Scalar := a.x * b.y - a.y * b.x

/-- Cross(a, s) = (s * a.y, -s * a.x). -/
def cross_vec_scalar (a : Vec2) (s : Scalar) : Vec2 := ⟨s * a.y, -s * a.x⟩

/-- Cross(s, a) = (-s * a.y, s * a.x). -/
def cross_scalar_vec (s : Scalar) (a : Vec2) : Vec2 := ⟨-s * a.y, s * a.x⟩

def abs (a : Vec2) : Vec2 := ⟨|a.x|, |a.y|⟩

theorem add_def (a b : Vec2) : a + b = ⟨a.x + b.x, a.y + b.y⟩ := rfl
theorem sub_def (a b : Vec2) : a - b = ⟨a.x - b.x, a.y - b.y⟩ := rfl
theorem neg_def (a : Vec2) : -a = ⟨-a.x, -a.y⟩ := rfl
theorem smul_def (s : Scalar) (a : Vec2) : s * a = ⟨s * a.x, s * a.y⟩ := rfl

end Vec2

/-- math/mat22.rs Mat22, stored as two column vectors. -/
structure Mat22 where
  col1 : Vec2
  col2 : Vec2
  deriving DecidableEq

namespace Mat22

def from_angle (ops : FloatOps) (angle : Scalar) : Mat22 :=
  let c := ops.cos angle
  let s := ops.sin angle
  ⟨⟨c, s⟩, ⟨-s, c⟩⟩

def transpose (m : Mat22) : Mat22 :=
  ⟨⟨m.col1.x, m.col2.x⟩, ⟨m.col1.y, m.col2.y⟩⟩

/-- Determinant a*d - b*c as computed inside Mat22::invert. -/
def det (m : Mat22) : Scalar :=
  m.col1.x * m.col2.y - m.col1.y * m.col2.x

/-- Condition of the debug assertion inside Mat22::invert: the assertion
fires exactly when this proposition is false. -/
def invertOk (m : Mat22) : Prop := f32Epsilon < |m.det|

instance (m : Mat22) : Decidable m.invertOk := by
  unfold invertOk; infer_instance

/-- Numeric result of Mat22::invert (the release-mode computation; the
debug assertion is modelled separately by invertOk). -/
def invert (m : Mat22) : Mat22 :=
  let a := m.col1.x
  let b := m.col1.y
  let c := m.col2.x
  let d := m.col2.y
  let dInv := 1 / (a * d - b * c)
  ⟨⟨dInv * d, -dInv * b⟩, ⟨-dInv * c, dInv * a⟩⟩

def abs (m : Mat22) : Mat22 := ⟨m.col1.abs, m.col2.abs⟩

instance : HMul Mat22 Vec2 Vec2 :=
  ⟨fun m v => v.x * m.col1 + v.y * m.col2⟩

instance : Add Mat22 := ⟨fun a b => ⟨a.col1 + b.col1, a.col2 + b.col2⟩⟩

instance : HMul Mat22 Mat22 Mat22 :=
  ⟨fun a b => ⟨a * b.col1, a * b.col2⟩⟩

theorem addm_def (a b : Mat22) : a + b = ⟨a.col1 + b.col1, a.col2 + b.col2⟩ := rfl
theorem mulVec_def (m : Mat22) (v : Vec2) : m * v = v.x * m.col1 + v.y * m.col2 := rfl

end Mat22

/-- dynamics/body.rs BodyDef; mass = none encodes a static body. -/
structure BodyDef where
  width : Vec2
  position : Vec2
  rotation : Scalar
  friction : Scalar
  mass : Option Scalar
  deriving DecidableEq

/-- Default BodyDef from the Rust Default impl. -/
def BodyDef.default0 : BodyDef where
  width := ⟨1, 1⟩
  position := ⟨0, 0⟩
  rotation := 0
  friction := 2 / 10
  mass := none

/-- dynamics/body.rs Body. -/
structure Body where
  position : Vec2
  rotation : Scalar
  velocity : Vec2
  angular_velocity : Scalar
  force : Vec2
  torque : Scalar
  width : Vec2
  friction : Scalar
  inv_mass : Scalar
  inv_i : Scalar
  deriving DecidableEq

/-- Placeholder body used as the default of list lookups; the Rust code
panics on an out-of-range handle, which the embedding models by returning
this value in branches that are unreachable for well-formed worlds. -/
def Body.default0 : Body where
  position := ⟨0, 0⟩
  rotation := 0
  velocity := ⟨0, 0⟩
  angular_velocity := 0
  force := ⟨0, 0⟩
  torque := 0
  width := ⟨0, 0⟩
  friction := 0
  inv_mass := 0
  inv_i := 0

/-- Body::from_def. -/
def Body.from_def (d : BodyDef) : Body :=
  let mi : Scalar × Scalar :=
    match d.mass with
    | some mass =>
      let i := mass * (d.width.x * d.width.x + d.width.y * d.width.y) / 12
      (1 / mass, 1 / i)
    | none => (0, 0)
  { position := d.position
    rotation := d.rotation
    velocity := ⟨0, 0⟩
    angular_velocity := 0
    force := ⟨0, 0⟩
    torque := 0
    width := d.width
    friction := d.friction
    inv_mass := mi.1
    inv_i := mi.2 }

/-- collision/collide.rs EdgeNumber. -/
inductive EdgeNumber where
  | NoEdge
  | Edge1
  | Edge2
  | Edge3
  | Edge4
  deriving DecidableEq

namespace EdgeNumber

/-- Value of the edge number under the repr(u8) discriminants. -/
def toU8 : EdgeNumber → ℕ
  | NoEdge => 0
  | Edge1 => 1
  | Edge2 => 2
  | Edge3 => 3
  | Edge4 => 4

/-- EdgeNumber::from_u8 with the defensive catch-all to NoEdge. -/
def from_u8 (v : ℕ) : EdgeNumber :=
  if v = 0 then NoEdge
  else if v = 1 then Edge1
  else if v = 2 then Edge2
  else if v = 3 then Edge3
  else if v = 4 then Edge4
  else NoEdge

end EdgeNumber

/-- collision/arbiter.rs FeaturePair. -/
structure FeaturePair where
  in_edge1 : EdgeNumber
  out_edge1 : EdgeNumber
  in_edge2 : EdgeNumber
  out_edge2 : EdgeNumber
  deriving DecidableEq

namespace FeaturePair

def default0 : FeaturePair :=
  ⟨EdgeNumber.NoEdge, EdgeNumber.NoEdge, EdgeNumber.NoEdge, EdgeNumber.NoEdge⟩

/-- FeaturePair::key, packing the four edge slots into a 32-bit key. -/
def key (fp : FeaturePair) : ℕ :=
  fp.in_edge1.toU8 |||
    (fp.out_edge1.toU8 <<< 8) |||
    (fp.in_edge2.toU8 <<< 16) |||
    (fp.out_edge2.toU8 <<< 24)

/-- FeaturePair::from_key, the inverse unpacking. -/
def from_key (v : ℕ) : FeaturePair where
  in_edge1 := EdgeNumber.from_u8 (v &&& 255)
  out_edge1 := EdgeNumber.from_u8 ((v >>> 8) &&& 255)
  in_edge2 := EdgeNumber.from_u8 ((v >>> 16) &&& 255)
  out_edge2 := EdgeNumber.from_u8 ((v >>> 24) &&& 255)

end FeaturePair

/-- collision/arbiter.rs Contact. -/
structure Contact where
  position : Vec2
  normal : Vec2
  r1 : Vec2
  r2 : Vec2
  separation : Scalar
  pn : Scalar
  pt : Scalar
  pnb : Scalar
  mass_normal : Scalar
  mass_tangent : Scalar
  bias : Scalar
  feature : FeaturePair
  deriving DecidableEq

/-- Contact::default(). -/
def Contact.default0 : Contact where
  position := ⟨0, 0⟩
  normal := ⟨0, 0⟩
  r1 := ⟨0, 0⟩
  r2 := ⟨0, 0⟩
  separation := 0
  pn := 0
  pt := 0
  pnb := 0
  mass_normal := 0
  mass_tangent := 0
  bias := 0
  feature := FeaturePair.default0

/-- collision/collide.rs ClipVertex. -/
structure ClipVertex where
  v : Vec2
  fp : FeaturePair
  deriving DecidableEq

def ClipVertex.default0 : ClipVertex := ⟨⟨0, 0⟩, FeaturePair.default0⟩

/-- collision/collide.rs flip, swapping the two halves of a feature pair. -/
def flip (fp : FeaturePair) : FeaturePair :=
  ⟨fp.in_edge2, fp.out_edge2, fp.in_edge1, fp.out_edge1⟩

/-- collision/collide.rs clip_segment_to_line; the returned list is the
prefix of v_out that the Rust function writes (its num_out entries). -/
def clipSegmentToLine (vIn0 vIn1 : ClipVertex) (normal : Vec2) (offset : Scalar)
    (clipEdge : EdgeNumber) : List ClipVertex :=
  let distance0 := normal.dot vIn0.v - offset
  let distance1 := normal.dot vIn1.v - offset
  let keep0 := if distance0 ≤ 0 then [vIn0] else []
  let keep1 := if distance1 ≤ 0 then [vIn1] else []
  let inter :=
    if distance0 * distance1 < 0 then
      let interp := distance0 / (distance0 - distance1)
      let v := vIn0.v + interp * (vIn1.v - vIn0.v)
      let fp :=
        if distance0 > 0 then
          { vIn0.fp with in_edge1 := clipEdge, in_edge2 := EdgeNumber.NoEdge }
        else
          { vIn1.fp with out_edge1 := clipEdge, out_edge2 := EdgeNumber.NoEdge }
      [ClipVertex.mk v fp]
    else []
  keep0 ++ keep1 ++ inter

/-- collision/collide.rs compute_incident_edge, returning the two clip
vertices the Rust function writes into c. -/
def computeIncidentEdge (h pos : Vec2) (rot : Mat22) (normal : Vec2) :
    ClipVertex × ClipVertex :=
  let rotT := rot.transpose
  let n := -(rotT * normal)
  let nAbs := n.abs
  let base :=
    if nAbs.x > nAbs.y then
      if sign_nonzero n.x > 0 then
        (ClipVertex.mk ⟨h.x, -h.y⟩
            { FeaturePair.default0 with in_edge2 := EdgeNumber.Edge3, out_edge2 := EdgeNumber.Edge4 },
          ClipVertex.mk ⟨h.x, h.y⟩
            { FeaturePair.default0 with in_edge2 := EdgeNumber.Edge4, out_edge2 := EdgeNumber.Edge1 })
      else
        (ClipVertex.mk ⟨-h.x, h.y⟩
            { FeaturePair.default0 with in_edge2 := EdgeNumber.Edge1, out_edge2 := EdgeNumber.Edge2 },
          ClipVertex.mk ⟨-h.x, -h.y⟩
            { FeaturePair.default0 with in_edge2 := EdgeNumber.Edge2, out_edge2 := EdgeNumber.Edge3 })
    else
      if sign_nonzero n.y > 0 then
        (ClipVertex.mk ⟨h.x, h.y⟩
            { FeaturePair.default0 with in_edge2 := EdgeNumber.Edge4, out_edge2 := EdgeNumber.Edge1 },
          ClipVertex.mk ⟨-h.x, h.y⟩
            { FeaturePair.default0 with in_edge2 := EdgeNumber.Edge1, out_edge2 := EdgeNumber.Edge2 })
      else
        (ClipVertex.mk ⟨-h.x, -h.y⟩
            { FeaturePair.default0 with in_edge2 := EdgeNumber.Edge2, out_edge2 := EdgeNumber.Edge3 },
          ClipVertex.mk ⟨h.x, -h.y⟩
            { FeaturePair.default0 with in_edge2 := EdgeNumber.Edge3, out_edge2 := EdgeNumber.Edge4 })
  (ClipVertex.mk (pos + rot * base.1.v) base.1.fp,
    ClipVertex.mk (pos + rot * base.2.v) base.2.fp)

/-- collision/collide.rs Axis. -/
inductive Axis where
  | FaceAX
  | FaceAY
  | FaceBX
  | FaceBY
  deriving DecidableEq

/-- Setup block at the top of collide: half extents, poses, rotation
matrices, relative positions in each frame, and the two face-separation
vectors used by the early-out tests. -/
structure CollideSetup where
  hA : Vec2
  hB : Vec2
  posA : Vec2
  posB : Vec2
  rotA : Mat22
  rotB : Mat22
  dA : Vec2
  dB : Vec2
  c : Mat22
  cAbs : Mat22
  ctAbs : Mat22
  faceA : Vec2
  faceB : Vec2

def collideSetup (ops : FloatOps) (bodyA bodyB : Body) : CollideSetup :=
  let hA := (1 / 2 : Scalar) * bodyA.width
  let hB := (1 / 2 : Scalar) * bodyB.width
  let posA := bodyA.position
  let posB := bodyB.position
  let rotA := Mat22.from_angle ops bodyA.rotation
  let rotB := Mat22.from_angle ops bodyB.rotation
  let rotAT := rotA.transpose
  let rotBT := rotB.transpose
  let dp := posA - posB
  let dA := rotAT * dp
  let dB := rotBT * dp
  let c := rotAT * rotB
  let cAbs := c.abs
  let ctAbs := c.transpose.abs
  { hA := hA, hB := hB, posA := posA, posB := posB, rotA := rotA, rotB := rotB
    dA := dA, dB := dB, c := c, cAbs := cAbs, ctAbs := ctAbs
    faceA := dA.abs - hA - cAbs * hB
    faceB := dB.abs - ctAbs * hA - hB }

/-- collision/collide.rs collide, on the two bodies of the pair; returns
the list of contacts the Rust function writes into the contacts array. -/
def collide (ops : FloatOps) (bodyA bodyB : Body) : List Contact :=
  let s := collideSetup ops bodyA bodyB
  if s.faceA.x > 0 ∨ s.faceA.y > 0 then []
  else if s.faceB.x > 0 ∨ s.faceB.y > 0 then []
  else
    let relativeTol : Scalar := 95 / 100
    let absoluteTol : Scalar := 1 / 100
    let sep0 := s.faceA.x
    let pick0 : Axis × Vec2 :=
      (Axis.FaceAX, if s.dA.x > 0 then s.rotA.col1 else -s.rotA.col1)
    let pick1 : Axis × Scalar × Vec2 :=
      if s.faceA.y > relativeTol * sep0 + absoluteTol * s.hA.y then
        (Axis.FaceAY, s.faceA.y, if s.dA.y > 0 then s.rotA.col2 else -s.rotA.col2)
      else (pick0.1, sep0, pick0.2)
    let pick2 : Axis × Scalar × Vec2 :=
      if s.faceB.x > relativeTol * pick1.2.1 + absoluteTol * s.hB.x then
        (Axis.FaceBX, s.faceB.x, if s.dB.x > 0 then s.rotB.col1 else -s.rotB.col1)
      else pick1
    let pick3 : Axis × Vec2 :=
      if s.faceB.y > relativeTol * pick2.2.1 + absoluteTol * s.hB.y then
        (Axis.FaceBY, if s.dB.y > 0 then s.rotB.col2 else -s.rotB.col2)
      else (pick2.1, pick2.2.2)
    let axis := pick3.1
    let normal := pick3.2
    let cfg :
        Vec2 × Scalar × Vec2 × Scalar × Scalar × EdgeNumber × EdgeNumber ×
          (ClipVertex × ClipVertex) :=
      match axis with
      | Axis.FaceAX =>
        let frontNormal := normal
        let front := s.posA.dot frontNormal + s.hA.x
        let sideNormal := s.rotA.col2
        let side := s.posA.dot sideNormal
        (frontNormal, front, sideNormal, -side + s.hA.y, side + s.hA.y,
          EdgeNumber.Edge3, EdgeNumber.Edge1,
          computeIncidentEdge s.hB s.posB s.rotB frontNormal)
      | Axis.FaceAY =>
        let frontNormal := normal
        let front := s.posA.dot frontNormal + s.hA.y
        let sideNormal := s.rotA.col1
        let side := s.posA.dot sideNormal
        (frontNormal, front, sideNormal, -side + s.hA.x, side + s.hA.x,
          EdgeNumber.Edge2, EdgeNumber.Edge4,
          computeIncidentEdge s.hB s.posB s.rotB frontNormal)
      | Axis.FaceBX =>
        let frontNormal := -normal
        let front := s.posB.dot frontNormal + s.hB.x
        let sideNormal := s.rotB.col2
        let side := s.posB.dot sideNormal
        (frontNormal, front, sideNormal, -side + s.hB.y, side + s.hB.y,
          EdgeNumber.Edge3, EdgeNumber.Edge1,
          computeIncidentEdge s.hA s.posA s.rotA frontNormal)
      | Axis.FaceBY =>
        let frontNormal := -normal
        let front := s.posB.dot frontNormal + s.hB.y
        let sideNormal := s.rotB.col1
        let side := s.posB.dot sideNormal
        (frontNormal, front, sideNormal, -side + s.hB.x, side + s.hB.x,
          EdgeNumber.Edge2, EdgeNumber.Edge4,
          computeIncidentEdge s.hA s.posA s.rotA frontNormal)
    let frontNormal := cfg.1
    let front := cfg.2.1
    let sideNormal := cfg.2.2.1
    let negSide := cfg.2.2.2.1
    let posSide := cfg.2.2.2.2.1
    let negEdge := cfg.2.2.2.2.2.1
    let posEdge := cfg.2.2.2.2.2.2.1
    let incidentEdge := cfg.2.2.2.2.2.2.2
    let clipPoints1 :=
      clipSegmentToLine incidentEdge.1 incidentEdge.2 (-sideNormal) negSide negEdge
    if clipPoints1.length < 2 then []
    else
      let clipPoints2 :=
        clipSegmentToLine (clipPoints1.getD 0 ClipVertex.default0)
          (clipPoints1.getD 1 ClipVertex.default0) sideNormal posSide posEdge
      if clipPoints2.length < 2 then []
      else
        let mkContact : ClipVertex → List Contact := fun cv =>
          let sep := frontNormal.dot cv.v - front
          if sep ≤ 0 then
            let fp := if axis = Axis.FaceBX ∨ axis = Axis.FaceBY then flip cv.fp else cv.fp
            [{ Contact.default0 with
                separation := sep
                normal := normal
                position := cv.v - sep * frontNormal
                feature := fp }]
          else []
        mkContact (clipPoints2.getD 0 ClipVertex.default0) ++
          mkContact (clipPoints2.getD 1 ClipVertex.default0)

/-- dynamics/world.rs WorldConfig. -/
structure WorldConfig where
  accumulate_impulses : Bool
  warm_starting : Bool
  position_correction : Bool
  deriving DecidableEq

/-- WorldConfig::default(). -/
def WorldConfig.default0 : WorldConfig :=
  ⟨true, true, true⟩

/-- collision/arbiter.rs ArbiterKey; body handles are list indices. -/
structure ArbiterKey where
  body1 : ℕ
  body2 : ℕ
  deriving DecidableEq

namespace ArbiterKey

/-- ArbiterKey::new, canonicalizing the pair order. -/
def new (b1 b2 : ℕ) : ArbiterKey :=
  if b1 ≤ b2 then ⟨b1, b2⟩ else ⟨b2, b1⟩

/-- Derived lexicographic strict order on keys, as used by the BTreeMap. -/
def ltb (a b : ArbiterKey) : Bool :=
  a.body1 < b.body1 || (a.body1 == b.body1 && a.body2 < b.body2)

end ArbiterKey

/-- collision/arbiter.rs Arbiter.  contacts models the fixed two-slot
storage array (always length 2 in reachable states); numContacts is the
count of active slots. -/
structure Arbiter where
  contacts : List Contact
  numContacts : ℕ
  body1 : ℕ
  body2 : ℕ
  friction : Scalar
  deriving DecidableEq

namespace Arbiter

/-- Arbiter::new: canonicalize the pair, run narrow phase into a
default-initialized two-slot array, combine friction. -/
def new (ops : FloatOps) (b1 b2 : ℕ) (bodies : List Body) : Arbiter :=
  let bb := if b1 ≤ b2 then (b1, b2) else (b2, b1)
  let cs := collide ops (bodies.getD bb.1 Body.default0) (bodies.getD bb.2 Body.default0)
  { contacts := [cs.getD 0 Contact.default0, cs.getD 1 Contact.default0]
    numContacts := cs.length
    body1 := bb.1
    body2 := bb.2
    friction := ops.sqrt ((bodies.getD bb.1 Body.default0).friction *
      (bodies.getD bb.2 Body.default0).friction) }

/-- Arbiter::update.  newContacts is the slice passed by the caller; the
call site in World::broad_phase passes the whole two-slot storage array of
the new arbiter, so numContacts afterwards is newContacts.length. -/
def update (arb : Arbiter) (newContacts : List Contact) (warmStarting : Bool) : Arbiter :=
  let active := arb.contacts.take arb.numContacts
  let merged := newContacts.map fun newC =>
    match active.find? (fun oldC => newC.feature.key == oldC.feature.key) with
    | some oldC =>
      if warmStarting then { newC with pn := oldC.pn, pt := oldC.pt, pnb := oldC.pnb }
      else { newC with pn := 0, pt := 0, pnb := 0 }
    | none => newC
  { arb with
      contacts := merged ++ arb.contacts.drop merged.length
      numContacts := newContacts.length }

/-- Per-contact body of the loop in Arbiter::pre_step. -/
def preStepContact (invDt : Scalar) (cfg : WorldConfig)
    (st : Body × Body) (c : Contact) :
    Contact × Body × Body :=
  let body1 := st.1
  let body2 := st.2
  let kAllowedPenetration : Scalar := 1 / 100
  let kBiasFactor : Scalar := if cfg.position_correction then 2 / 10 else 0
  let r1 := c.position - body1.position
  let r2 := c.position - body2.position
  let rn1 := r1.dot c.normal
  let rn2 := r2.dot c.normal
  let kNormal := body1.inv_mass + body2.inv_mass +
    (body1.inv_i * (r1.dot r1 - rn1 * rn1) + body2.inv_i * (r2.dot r2 - rn2 * rn2))
  let tangent := Vec2.cross_vec_scalar c.normal 1
  let rt1 := r1.dot tangent
  let rt2 := r2.dot tangent
  let kTangent := body1.inv_mass + body2.inv_mass +
    (body1.inv_i * (r1.dot r1 - rt1 * rt1) + body2.inv_i * (r2.dot r2 - rt2 * rt2))
  let c := { c with
    mass_normal := 1 / kNormal
    mass_tangent := 1 / kTangent
    bias := -kBiasFactor * invDt * min (c.separation + kAllowedPenetration) 0 }
  if cfg.accumulate_impulses then
    let p := c.pn * c.normal + c.pt * tangent
    (c,
      { body1 with
          velocity := body1.velocity - body1.inv_mass * p
          angular_velocity := body1.angular_velocity - body1.inv_i * (r1.cross p) },
      { body2 with
          velocity := body2.velocity + body2.inv_mass * p
          angular_velocity := body2.angular_velocity + body2.inv_i * (r2.cross p) })
  else (c, body1, body2)

/-- Accumulating form of preStepContact used by the contact loop. -/
def preStepFold (invDt : Scalar) (cfg : WorldConfig)
    (acc : List Contact × Body × Body) (c : Contact) : List Contact × Body × Body :=
  let r := preStepContact invDt cfg (acc.2.1, acc.2.2) c
  (acc.1 ++ [r.1], r.2.1, r.2.2)

/-- Arbiter::pre_step acting on the two bodies of the pair. -/
def preStep (arb : Arbiter) (invDt : Scalar) (cfg : WorldConfig) (body1 body2 : Body) :
    Arbiter × Body × Body :=
  let res := (arb.contacts.take arb.numContacts).foldl
    (preStepFold invDt cfg) ([], body1, body2)
  ({ arb with contacts := res.1 ++ arb.contacts.drop arb.numContacts },
    res.2.1, res.2.2)

/-- Per-contact body of the loop in Arbiter::apply_impulse. -/
def applyImpulseContact (cfg : WorldConfig) (friction : Scalar)
    (st : Body × Body) (c : Contact) : Contact × Body × Body :=
  let b1 := st.1
  let b2 := st.2
  let c := { c with r1 := c.position - b1.position, r2 := c.position - b2.position }
  let dv := b2.velocity + Vec2.cross_scalar_vec b2.angular_velocity c.r2
    - b1.velocity - Vec2.cross_scalar_vec b1.angular_velocity c.r1
  let vn := dv.dot c.normal
  let dpn0 := c.mass_normal * (-vn + c.bias)
  let cdpn : Contact × Scalar :=
    if cfg.accumulate_impulses then
      let pn0 := c.pn
      let pn1 := max (pn0 + dpn0) 0
      ({ c with pn := pn1 }, pn1 - pn0)
    else (c, max dpn0 0)
  let c := cdpn.1
  let dpn := cdpn.2
  let pnVec := dpn * c.normal
  let b1 := { b1 with
    velocity := b1.velocity - b1.inv_mass * pnVec
    angular_velocity := b1.angular_velocity - b1.inv_i * (c.r1.cross pnVec) }
  let b2 := { b2 with
    velocity := b2.velocity + b2.inv_mass * pnVec
    angular_velocity := b2.angular_velocity + b2.inv_i * (c.r2.cross pnVec) }
  let dv := b2.velocity + Vec2.cross_scalar_vec b2.angular_velocity c.r2
    - b1.velocity - Vec2.cross_scalar_vec b1.angular_velocity c.r1
  let tangent := Vec2.cross_vec_scalar c.normal 1
  let vt := dv.dot tangent
  let dpt0 := c.mass_tangent * (-vt)
  let cdpt : Contact × Scalar :=
    if cfg.accumulate_impulses then
      let maxPt := friction * c.pn
      let oldTangentImpulse := c.pt
      let pt1 := clampq (oldTangentImpulse + dpt0) (-maxPt) maxPt
      ({ c with pt := pt1 }, pt1 - oldTangentImpulse)
    else
      let maxPt := friction * dpn
      (c, clampq dpt0 (-maxPt) maxPt)
  let c := cdpt.1
  let dpt := cdpt.2
  let ptVec := dpt * tangent
  let b1 := { b1 with
    velocity := b1.velocity - b1.inv_mass * ptVec
    angular_velocity := b1.angular_velocity - b1.inv_i * (c.r1.cross ptVec) }
  let b2 := { b2 with
    velocity := b2.velocity + b2.inv_mass * ptVec
    angular_velocity := b2.angular_velocity + b2.inv_i * (c.r2.cross ptVec) }
  (c, b1, b2)

/-- Accumulating form of applyImpulseContact used by the contact loop. -/
def applyImpulseFold (cfg : WorldConfig) (friction : Scalar)
    (acc : List Contact × Body × Body) (c : Contact) : List Contact × Body × Body :=
  let r := applyImpulseContact cfg friction (acc.2.1, acc.2.2) c
  (acc.1 ++ [r.1], r.2.1, r.2.2)

/-- Arbiter::apply_impulse acting on the two bodies of the pair. -/
def applyImpulse (arb : Arbiter) (cfg : WorldConfig) (body1 body2 : Body) :
    Arbiter × Body × Body :=
  let res := (arb.contacts.take arb.numContacts).foldl
    (applyImpulseFold cfg arb.friction) ([], body1, body2)
  ({ arb with contacts := res.1 ++ arb.contacts.drop arb.numContacts },
    res.2.1, res.2.2)

end Arbiter

/-- dynamics/joint.rs Joint. -/
structure Joint where
  m : Mat22
  local_anchor1 : Vec2
  local_anchor2 : Vec2
  r1 : Vec2
  r2 : Vec2
  bias : Vec2
  p : Vec2
  body1 : ℕ
  body2 : ℕ
  bias_factor : Scalar
  softness : Scalar
  deriving DecidableEq

namespace Joint

/-- Effective mass matrix K = K1 + K2 + K3 with the softness term added to
the diagonal, exactly as assembled in Joint::pre_step from the two bodies
and the rotated moment arms r1, r2. -/
def kMatrix (j : Joint) (body1 body2 : Body) (r1 r2 : Vec2) : Mat22 :=
  let k1 := Mat22.mk ⟨body1.inv_mass + body2.inv_mass, 0⟩
    ⟨0, body1.inv_mass + body2.inv_mass⟩
  let k2 := Mat22.mk ⟨body1.inv_i * r1.y * r1.y, -body1.inv_i * r1.x * r1.y⟩
    ⟨-body1.inv_i * r1.x * r1.y, body1.inv_i * r1.x * r1.x⟩
  let k3 := Mat22.mk ⟨body2.inv_i * r2.y * r2.y, -body2.inv_i * r2.x * r2.y⟩
    ⟨-body2.inv_i * r2.x * r2.y, body2.inv_i * r2.x * r2.x⟩
  let k := k1 + k2 + k3
  Mat22.mk ⟨k.col1.x + j.softness, k.col1.y⟩ ⟨k.col2.x, k.col2.y + j.softness⟩

/-- Joint::pre_step acting on the two bodies of the pair. -/
def preStep (j : Joint) (ops : FloatOps) (invDt : Scalar) (cfg : WorldConfig)
    (body1 body2 : Body) : Joint × Body × Body :=
  let rot1 := Mat22.from_angle ops body1.rotation
  let rot2 := Mat22.from_angle ops body2.rotation
  let r1 := rot1 * j.local_anchor1
  let r2 := rot2 * j.local_anchor2
  let k := j.kMatrix body1 body2 r1 r2
  let m := k.invert
  let p1 := body1.position + r1
  let p2 := body2.position + r2
  let dp := p2 - p1
  let bias : Vec2 :=
    if cfg.position_correction then (-j.bias_factor * invDt) * dp else ⟨0, 0⟩
  if cfg.warm_starting then
    ({ j with m := m, r1 := r1, r2 := r2, bias := bias },
      { body1 with
          velocity := body1.velocity - body1.inv_mass * j.p
          angular_velocity := body1.angular_velocity - body1.inv_i * (r1.cross j.p) },
      { body2 with
          velocity := body2.velocity + body2.inv_mass * j.p
          angular_velocity := body2.angular_velocity + body2.inv_i * (r2.cross j.p) })
  else
    ({ j with m := m, r1 := r1, r2 := r2, bias := bias, p := ⟨0, 0⟩ },
      body1, body2)

/-- Joint::apply_impulse acting on the two bodies of the pair. -/
def applyImpulse (j : Joint) (body1 body2 : Body) : Joint × Body × Body :=
  let dv := body2.velocity + Vec2.cross_scalar_vec body2.angular_velocity j.r2
    - body1.velocity - Vec2.cross_scalar_vec body1.angular_velocity j.r1
  let impulse := j.m * (j.bias - dv - j.softness * j.p)
  ({ j with p := j.p + impulse },
    { body1 with
        velocity := body1.velocity - body1.inv_mass * impulse
        angular_velocity := body1.angular_velocity - body1.inv_i * (j.r1.cross impulse) },
    { body2 with
        velocity := body2.velocity + body2.inv_mass * impulse
        angular_velocity := body2.angular_velocity + body2.inv_i * (j.r2.cross impulse) })

end Joint

/-- dynamics/world.rs bodies_two_mut.  Returns none exactly when the Rust
function panics: on identical handles (the assert) or on an out-of-range
index; otherwise the two borrowed bodies in caller order. -/
def bodiesTwoMut (bodies : List Body) (a b : ℕ) : Option (Body × Body) :=
  if a = b then none
  else
    let ij := if a ≤ b then (a, b) else (b, a)
    match (bodies.take ij.2)[ij.1]?, (bodies.drop ij.2)[0]? with
    | some bi, some bj => some (if a < b then (bi, bj) else (bj, bi))
    | _, _ => none

/-- Reads the two bodies of a pair through bodiesTwoMut, applies a
transformation, and writes the results back at the caller-order indices.
In the branch where the Rust code would panic, the state is returned
unchanged (the branch is unreachable for worlds built through the API). -/
def runPair {γ : Type} (bodies : List Body) (a b : ℕ)
    (upd : Body → Body → γ × Body × Body) (keep : γ) : γ × List Body :=
  match bodiesTwoMut bodies a b with
  | none => (keep, bodies)
  | some bb =>
    let r := upd bb.1 bb.2
    (r.1, (bodies.set a r.2.1).set b r.2.2)

/-- dynamics/world.rs World. The arbiter BTreeMap is modelled as an
association list sorted by key. -/
structure World where
  gravity : Vec2
  iterations : ℕ
  config : WorldConfig
  bodies : List Body
  joints : List Joint
  arbiters : List (ArbiterKey × Arbiter)
  deriving DecidableEq

/-- Unordered index pairs (i, j) with i < j < n, in the iteration order of
the nested loops of World::broad_phase. -/
def pairIndices (n : ℕ) : List (ℕ × ℕ) :=
  (List.range n).flatMap fun i => (List.range' (i + 1) (n - (i + 1))).map fun j => (i, j)

/-- BTreeMap entry upsert of World::broad_phase: a vacant entry receives
the new arbiter; an occupied entry is updated in place (keeping its
friction and handles) from the new arbiter's contact storage. -/
def arbUpsert (key : ArbiterKey) (newArb : Arbiter) (warmStarting : Bool) :
    List (ArbiterKey × Arbiter) → List (ArbiterKey × Arbiter)
  | [] => [(key, newArb)]
  | (k, a) :: rest =>
    if key = k then (k, a.update newArb.contacts warmStarting) :: rest
    else if ArbiterKey.ltb key k then (key, newArb) :: (k, a) :: rest
    else (k, a) :: arbUpsert key newArb warmStarting rest

/-- BTreeMap::remove. -/
def arbRemove (key : ArbiterKey) (arbs : List (ArbiterKey × Arbiter)) :
    List (ArbiterKey × Arbiter) :=
  arbs.filter fun ka => ka.1 != key

/-- World::broad_phase, returning the refreshed arbiter collection. -/
def World.broadPhase (ops : FloatOps) (w : World) : List (ArbiterKey × Arbiter) :=
  (pairIndices w.bodies.length).foldl
    (fun arbs ij =>
      if (w.bodies.getD ij.1 Body.default0).inv_mass = 0 ∧
          (w.bodies.getD ij.2 Body.default0).inv_mass = 0 then arbs
      else
        let newArb := Arbiter.new ops ij.1 ij.2 w.bodies
        let key := ArbiterKey.new ij.1 ij.2
        if newArb.numContacts > 0 then arbUpsert key newArb w.config.warm_starting arbs
        else arbRemove key arbs)
    w.arbiters

/-- Pre-step sweep over the arbiter collection (in key order). -/
def preStepArbs (invDt : Scalar) (cfg : WorldConfig) :
    List (ArbiterKey × Arbiter) → List Body → List (ArbiterKey × Arbiter) × List Body
  | [], bodies => ([], bodies)
  | (k, arb) :: rest, bodies =>
    let r := runPair bodies arb.body1 arb.body2 (fun b1 b2 => arb.preStep invDt cfg b1 b2) arb
    let rr := preStepArbs invDt cfg rest r.2
    ((k, r.1) :: rr.1, rr.2)

/-- Pre-step sweep over the joints. -/
def preStepJoints (ops : FloatOps) (invDt : Scalar) (cfg : WorldConfig) :
    List Joint → List Body → List Joint × List Body
  | [], bodies => ([], bodies)
  | j :: rest, bodies =>
    let r := runPair bodies j.body1 j.body2 (fun b1 b2 => j.preStep ops invDt cfg b1 b2) j
    let rr := preStepJoints ops invDt cfg rest r.2
    (r.1 :: rr.1, rr.2)

/-- Impulse sweep over the arbiter collection. In Arbiter::apply_impulse
the handle pair is re-sorted before borrowing, but the stored handles are
already sorted, so the caller-order pair is used directly. -/
def applyArbs (cfg : WorldConfig) :
    List (ArbiterKey × Arbiter) → List Body → List (ArbiterKey × Arbiter) × List Body
  | [], bodies => ([], bodies)
  | (k, arb) :: rest, bodies =>
    let bb := if arb.body1 ≤ arb.body2 then (arb.body1, arb.body2) else (arb.body2, arb.body1)
    let r := runPair bodies bb.1 bb.2 (fun b1 b2 => arb.applyImpulse cfg b1 b2) arb
    let rr := applyArbs cfg rest r.2
    ((k, r.1) :: rr.1, rr.2)

/-- Impulse sweep over the joints. -/
def applyJoints :
    List Joint → List Body → List Joint × List Body
  | [], bodies => ([], bodies)
  | j :: rest, bodies =>
    let r := runPair bodies j.body1 j.body2 (fun b1 b2 => j.applyImpulse b1 b2) j
    let rr := applyJoints rest r.2
    (r.1 :: rr.1, rr.2)

/-- One solver iteration: all arbiters, then all joints. -/
def solveOnce (cfg : WorldConfig)
    (st : List Body × List (ArbiterKey × Arbiter) × List Joint) :
    List Body × List (ArbiterKey × Arbiter) × List Joint :=
  let ra := applyArbs cfg st.2.1 st.1
  let rj := applyJoints st.2.2 ra.2
  (rj.2, ra.1, rj.1)

/-- The fixed-count solver loop. -/
def solveLoop (cfg : WorldConfig) :
    ℕ → (List Body × List (ArbiterKey × Arbiter) × List Joint) →
      List Body × List (ArbiterKey × Arbiter) × List Joint
  | 0, st => st
  | n + 1, st => solveLoop cfg n (solveOnce cfg st)

/-- Integrate-forces loop of World::step; static bodies are skipped. -/
def integrateForces (gravity : Vec2) (dt : Scalar) (bodies : List Body) : List Body :=
  bodies.map fun b =>
    if b.inv_mass = 0 then b
    else
      { b with
          velocity := b.velocity + dt * (gravity + b.inv_mass * b.force)
          angular_velocity := b.angular_velocity + dt * b.inv_i * b.torque }

/-- Integrate-velocities loop of World::step; also clears the force and
torque accumulators of every body. -/
def integrateVelocities (dt : Scalar) (bodies : List Body) : List Body :=
  bodies.map fun b =>
    { b with
        position := b.position + dt * b.velocity
        rotation := b.rotation + dt * b.angular_velocity
        force := (⟨0, 0⟩ : Vec2)
        torque := 0 }

/-- World::step up to (but excluding) the integrate-velocities loop:
broad phase, force integration, pre-steps, and the solver iterations. -/
def stepCore (ops : FloatOps) (dt : Scalar) (w : World) :
    List Body × List (ArbiterKey × Arbiter) × List Joint :=
  let invDt : Scalar := if dt ≤ 0 then 0 else 1 / dt
  let arbs0 := w.broadPhase ops
  let bodies1 := integrateForces w.gravity dt w.bodies
  let ra := preStepArbs invDt w.config arbs0 bodies1
  let rj := preStepJoints ops invDt w.config w.joints ra.2
  solveLoop w.config w.iterations (rj.2, ra.1, rj.1)

/-- World::step. -/
def World.step (ops : FloatOps) (dt : Scalar) (w : World) : World :=
  let sv := stepCore ops dt w
  { w with
      bodies := integrateVelocities dt sv.1
      joints := sv.2.2
      arbiters := sv.2.1 }

/-! Helper lemmas about list indexing used by the frame-effect proofs. -/

theorem getD_eq_default {α : Type} (l : List α) (i : ℕ) (d : α)
    (h : l.length ≤ i) : l.getD i d = d := by
  simp [List.getD_eq_getElem?_getD, List.getElem?_eq_none h]

theorem getD_set {α : Type} (l : List α) (n m : ℕ) (a d : α) :
    (l.set n a).getD m d = if n = m ∧ n < l.length then a else l.getD m d := by
  by_cases hnm : n = m
  · subst hnm
    by_cases hl : n < l.length
    · simp [List.getD_eq_getElem?_getD, List.getElem?_set_self hl, hl]
    · simp [List.set_eq_of_length_le (Nat.le_of_not_lt hl), hl]
  · simp [List.getD_eq_getElem?_getD, List.getElem?_set_ne hnm, hnm]

theorem getD_map {α β : Type} (f : α → β) (l : List α) (i : ℕ)
    (h : i < l.length) (dβ : β) (dα : α) :
    (l.map f).getD i dβ = f (l.getD i dα) := by
  simp [List.getD_eq_getElem?_getD, List.getElem?_map,
    List.getElem?_eq_getElem h]

/-- Characterization of a successful bodiesTwoMut: the handles are
distinct and in range, and the returned bodies are the entries at the
caller-order indices. -/
theorem bodiesTwoMut_eq {bodies : List Body} {a b : ℕ} {p : Body × Body}
    (h : bodiesTwoMut bodies a b = some p) :
    a ≠ b ∧ a < bodies.length ∧ b < bodies.length ∧
      p = (bodies.getD a Body.default0, bodies.getD b Body.default0) := by
  unfold bodiesTwoMut at h
  by_cases hab : a = b
  · simp [hab] at h
  · simp only [hab, if_false] at h
    rcases Nat.lt_or_ge a b with hlt | hge
    · have hle : a ≤ b := Nat.le_of_lt hlt
      simp only [hle, if_true] at h
      rcases ht : (bodies.take b)[a]? with _ | bi
      · simp [ht] at h
      rcases hd : (bodies.drop b)[0]? with _ | bj
      · simp [ht, hd] at h
      simp only [ht, hd, hlt, if_true] at h
      have ht' : bodies[a]? = some bi := by
        rw [← List.getElem?_take_of_lt hlt]; exact ht
      have hd' : bodies[b]? = some bj := by
        have := List.getElem?_drop bodies b 0
        rw [Nat.add_zero] at this
        rw [← this]; exact hd
      have ha : a < bodies.length := by
        have := List.getElem?_eq_some.mp ht'
        exact this.1
      have hb : b < bodies.length := by
        have := List.getElem?_eq_some.mp hd'
        exact this.1
      refine ⟨hab, ha, hb, ?_⟩
      cases h
      simp [List.getD_eq_getElem?_getD, ht', hd']
    · have hba : b < a := Nat.lt_of_le_of_ne hge (fun hc => hab hc.symm)
      have hle : ¬ a ≤ b := Nat.not_le.mpr hba
      simp only [hle, if_false] at h
      rcases ht : (bodies.take a)[b]? with _ | bi
      · simp [ht] at h
      rcases hd : (bodies.drop a)[0]? with _ | bj
      · simp [ht, hd] at h
      simp only [ht, hd] at h
      have hnlt : ¬ a < b := Nat.not_lt.mpr (Nat.le_of_lt hba)
      simp only [hnlt, if_false] at h
      have ht' : bodies[b]? = some bi := by
        rw [← List.getElem?_take_of_lt hba]; exact ht
      have hd' : bodies[a]? = some bj := by
        have := List.getElem?_drop bodies a 0
        rw [Nat.add_zero] at this
        rw [← this]; exact hd
      have hb : b < bodies.length := (List.getElem?_eq_some.mp ht').1
      have ha : a < bodies.length := (List.getElem?_eq_some.mp hd').1
      refine ⟨hab, ha, hb, ?_⟩
      cases h
      simp [List.getD_eq_getElem?_getD, ht', hd']

/-! Frame-effect machinery: the solver stages touch only velocity and
angular velocity of a body, never its other fields. -/

/-- The second body agrees with the first on every field except
(possibly) velocity and angular_velocity. -/
def OnlyVel (b b' : Body) : Prop :=
  b'.position = b.position ∧ b'.rotation = b.rotation ∧ b'.force = b.force ∧
    b'.torque = b.torque ∧ b'.width = b.width ∧ b'.friction = b.friction ∧
    b'.inv_mass = b.inv_mass ∧ b'.inv_i = b.inv_i

theorem onlyVel_refl (b : Body) : OnlyVel b b :=
  ⟨rfl, rfl, rfl, rfl, rfl, rfl, rfl, rfl⟩

theorem onlyVel_trans {a b c : Body} (h1 : OnlyVel a b) (h2 : OnlyVel b c) :
    OnlyVel a c := by
  obtain ⟨p1, r1, f1, t1, w1, fr1, m1, i1⟩ := h1
  obtain ⟨p2, r2, f2, t2, w2, fr2, m2, i2⟩ := h2
  exact ⟨p2.trans p1, r2.trans r1, f2.trans f1, t2.trans t1, w2.trans w1,
    fr2.trans fr1, m2.trans m1, i2.trans i1⟩

/-- Pointwise OnlyVel between two body lists of equal length. -/
def OnlyVelL (l l' : List Body) : Prop :=
  l'.length = l.length ∧
    ∀ i, i < l.length →
      OnlyVel (l.getD i Body.default0) (l'.getD i Body.default0)

theorem onlyVelL_refl (l : List Body) : OnlyVelL l l :=
  ⟨rfl, fun _ _ => onlyVel_refl _⟩

theorem onlyVelL_trans {a b c : List Body} (h1 : OnlyVelL a b) (h2 : OnlyVelL b c) :
    OnlyVelL a c := by
  refine ⟨h2.1.trans h1.1, fun i hi => ?_⟩
  exact onlyVel_trans (h1.2 i hi) (h2.2 i (h1.1 ▸ hi))

/-- A pointwise OnlyVel fact extends to all indices: out of range both
sides are the default body. -/
theorem OnlyVelL.getD {l l' : List Body} (h : OnlyVelL l l') (i : ℕ) :
    OnlyVel (l.getD i Body.default0) (l'.getD i Body.default0) := by
  by_cases hi : i < l.length
  · exact h.2 i hi
  · rw [getD_eq_default l i _ (Nat.le_of_not_lt hi),
      getD_eq_default l' i _ (h.1 ▸ Nat.le_of_not_lt hi)]
    exact onlyVel_refl _

/-- Body-pair transformations whose outputs are OnlyVel-related to their
inputs induce OnlyVelL on the body list through runPair. -/
theorem runPair_onlyVel {γ : Type} (bodies : List Body) (a b : ℕ)
    (upd : Body → Body → γ × Body × Body) (keep : γ)
    (h : ∀ b1 b2, OnlyVel b1 (upd b1 b2).2.1 ∧ OnlyVel b2 (upd b1 b2).2.2) :
    OnlyVelL bodies (runPair bodies a b upd keep).2 := by
  unfold runPair
  rcases hbm : bodiesTwoMut bodies a b with _ | p
  · exact onlyVelL_refl bodies
  · obtain ⟨hab, ha, hb, hp⟩ := bodiesTwoMut_eq hbm
    subst hp
    refine ⟨by simp, fun i hi => ?_⟩
    rw [getD_set, getD_set]
    by_cases hbi : b = i
    · subst hbi
      rw [if_pos ⟨rfl, by simpa using hb⟩]
      simpa using (h _ _).2
    · rw [if_neg (by simp [hbi])]
      by_cases hai : a = i
      · subst hai
        rw [if_pos ⟨rfl, ha⟩]
        simpa using (h _ _).1
      · rw [if_neg (by simp [hai])]
        exact onlyVel_refl _

/-- Folding a body-pair/contact step that only touches velocities keeps
the carried bodies OnlyVel-related to the initial ones. -/
theorem foldl_contacts_onlyVel {α : Type}
    (g : (List Contact × Body × Body) → α → List Contact × Body × Body)
    (hg : ∀ st a, OnlyVel st.2.1 (g st a).2.1 ∧ OnlyVel st.2.2 (g st a).2.2)
    (l : List α) :
    ∀ st : List Contact × Body × Body,
      OnlyVel st.2.1 (l.foldl g st).2.1 ∧ OnlyVel st.2.2 (l.foldl g st).2.2 := by
  induction l with
  | nil => exact fun st => ⟨onlyVel_refl _, onlyVel_refl _⟩
  | cons x xs ih =>
    intro st
    have h1 := hg st x
    have h2 := ih (g st x)
    exact ⟨onlyVel_trans h1.1 h2.1, onlyVel_trans h1.2 h2.2⟩

theorem preStepContact_onlyVel (invDt : Scalar) (cfg : WorldConfig)
    (st : Body × Body) (c : Contact) :
    OnlyVel st.1 (Arbiter.preStepContact invDt cfg st c).2.1 ∧
      OnlyVel st.2 (Arbiter.preStepContact invDt cfg st c).2.2 := by
  unfold Arbiter.preStepContact
  by_cases h : cfg.accumulate_impulses <;>
    simp [h, OnlyVel]

theorem applyImpulseContact_onlyVel (cfg : WorldConfig) (friction : Scalar)
    (st : Body × Body) (c : Contact) :
    OnlyVel st.1 (Arbiter.applyImpulseContact cfg friction st c).2.1 ∧
      OnlyVel st.2 (Arbiter.applyImpulseContact cfg friction st c).2.2 := by
  unfold Arbiter.applyImpulseContact
  by_cases h : cfg.accumulate_impulses <;>
    simp [h, OnlyVel]

theorem arbPreStep_onlyVel (arb : Arbiter) (invDt : Scalar) (cfg : WorldConfig)
    (b1 b2 : Body) :
    OnlyVel b1 (arb.preStep invDt cfg b1 b2).2.1 ∧
      OnlyVel b2 (arb.preStep invDt cfg b1 b2).2.2 := by
  unfold Arbiter.preStep
  exact foldl_contacts_onlyVel (Arbiter.preStepFold invDt cfg)
    (fun st a => preStepContact_onlyVel invDt cfg (st.2.1, st.2.2) a)
    (arb.contacts.take arb.numContacts) ([], b1, b2)

theorem arbApplyImpulse_onlyVel (arb : Arbiter) (cfg : WorldConfig)
    (b1 b2 : Body) :
    OnlyVel b1 (arb.applyImpulse cfg b1 b2).2.1 ∧
      OnlyVel b2 (arb.applyImpulse cfg b1 b2).2.2 := by
  unfold Arbiter.applyImpulse
  exact foldl_contacts_onlyVel (Arbiter.applyImpulseFold cfg arb.friction)
    (fun st a => applyImpulseContact_onlyVel cfg arb.friction (st.2.1, st.2.2) a)
    (arb.contacts.take arb.numContacts) ([], b1, b2)

theorem jointPreStep_onlyVel (j : Joint) (ops : FloatOps) (invDt : Scalar)
    (cfg : WorldConfig) (b1 b2 : Body) :
    OnlyVel b1 (j.preStep ops invDt cfg b1 b2).2.1 ∧
      OnlyVel b2 (j.preStep ops invDt cfg b1 b2).2.2 := by
  unfold Joint.preStep
  by_cases h : cfg.warm_starting <;>
    simp [h, OnlyVel]

theorem jointApplyImpulse_onlyVel (j : Joint) (b1 b2 : Body) :
    OnlyVel b1 (j.applyImpulse b1 b2).2.1 ∧
      OnlyVel b2 (j.applyImpulse b1 b2).2.2 := by
  unfold Joint.applyImpulse
  exact ⟨⟨rfl, rfl, rfl, rfl, rfl, rfl, rfl, rfl⟩,
    ⟨rfl, rfl, rfl, rfl, rfl, rfl, rfl, rfl⟩⟩

theorem preStepArbs_onlyVelL (invDt : Scalar) (cfg : WorldConfig) :
    ∀ (arbs : List (ArbiterKey × Arbiter)) (bodies : List Body),
      OnlyVelL bodies (preStepArbs invDt cfg arbs bodies).2 := by
  intro arbs
  induction arbs with
  | nil => exact fun bodies => onlyVelL_refl bodies
  | cons ka rest ih =>
    intro bodies
    exact onlyVelL_trans
      (runPair_onlyVel bodies ka.2.body1 ka.2.body2 _ ka.2
        (fun b1 b2 => arbPreStep_onlyVel ka.2 invDt cfg b1 b2))
      (ih _)

theorem preStepJoints_onlyVelL (ops : FloatOps) (invDt : Scalar) (cfg : WorldConfig) :
    ∀ (joints : List Joint) (bodies : List Body),
      OnlyVelL bodies (preStepJoints ops invDt cfg joints bodies).2 := by
  intro joints
  induction joints with
  | nil => exact fun bodies => onlyVelL_refl bodies
  | cons j rest ih =>
    intro bodies
    exact onlyVelL_trans
      (runPair_onlyVel bodies j.body1 j.body2 _ j
        (fun b1 b2 => jointPreStep_onlyVel j ops invDt cfg b1 b2))
      (ih _)

theorem applyArbs_onlyVelL (cfg : WorldConfig) :
    ∀ (arbs : List (ArbiterKey × Arbiter)) (bodies : List Body),
      OnlyVelL bodies (applyArbs cfg arbs bodies).2 := by
  intro arbs
  induction arbs with
  | nil => exact fun bodies => onlyVelL_refl bodies
  | cons ka rest ih =>
    intro bodies
    exact onlyVelL_trans
      (runPair_onlyVel bodies _ _ _ ka.2
        (fun b1 b2 => arbApplyImpulse_onlyVel ka.2 cfg b1 b2))
      (ih _)

theorem applyJoints_onlyVelL :
    ∀ (joints : List Joint) (bodies : List Body),
      OnlyVelL bodies (applyJoints joints bodies).2 := by
  intro joints
  induction joints with
  | nil => exact fun bodies => onlyVelL_refl bodies
  | cons j rest ih =>
    intro bodies
    exact onlyVelL_trans
      (runPair_onlyVel bodies j.body1 j.body2 _ j
        (fun b1 b2 => jointApplyImpulse_onlyVel j b1 b2))
      (ih _)

theorem solveOnce_onlyVelL (cfg : WorldConfig)
    (st : List Body × List (ArbiterKey × Arbiter) × List Joint) :
    OnlyVelL st.1 (solveOnce cfg st).1 := by
  unfold solveOnce
  exact onlyVelL_trans (applyArbs_onlyVelL cfg st.2.1 st.1)
    (applyJoints_onlyVelL st.2.2 _)

theorem solveLoop_onlyVelL (cfg : WorldConfig) :
    ∀ (n : ℕ) (st : List Body × List (ArbiterKey × Arbiter) × List Joint),
      OnlyVelL st.1 (solveLoop cfg n st).1 := by
  intro n
  induction n with
  | zero => exact fun st => onlyVelL_refl st.1
  | succ n ih =>
    intro st
    exact onlyVelL_trans (solveOnce_onlyVelL cfg st) (ih (solveOnce cfg st))

theorem integrateForces_onlyVelL (gravity : Vec2) (dt : Scalar)
    (bodies : List Body) :
    OnlyVelL bodies (integrateForces gravity dt bodies) := by
  refine ⟨by simp [integrateForces], fun i hi => ?_⟩
  unfold integrateForces
  rw [getD_map _ _ _ hi _ Body.default0]
  by_cases h : (bodies.getD i Body.default0).inv_mass = 0
  · simp only [if_pos h]
    exact onlyVel_refl _
  · simp only [if_neg h]
    exact ⟨rfl, rfl, rfl, rfl, rfl, rfl, rfl, rfl⟩

/-- Everything before the integrate-velocities loop changes only
velocities and angular velocities. -/
theorem stepCore_onlyVelL (ops : FloatOps) (dt : Scalar) (w : World) :
    OnlyVelL w.bodies (stepCore ops dt w).1 := by
  unfold stepCore
  exact onlyVelL_trans (integrateForces_onlyVelL w.gravity dt w.bodies)
    (onlyVelL_trans (preStepArbs_onlyVelL _ w.config _ _)
      (onlyVelL_trans (preStepJoints_onlyVelL ops _ w.config w.joints _)
        (solveLoop_onlyVelL w.config w.iterations _)))

/-! Static-body machinery: a body with zero inverse mass and zero inverse
inertia is fixed exactly by every solver update, because every velocity
increment is scaled by inv_mass or inv_i. -/

theorem Body.eq_of_fields {a b : Body}
    (h1 : a.position = b.position) (h2 : a.rotation = b.rotation)
    (h3 : a.velocity = b.velocity) (h4 : a.angular_velocity = b.angular_velocity)
    (h5 : a.force = b.force) (h6 : a.torque = b.torque)
    (h7 : a.width = b.width) (h8 : a.friction = b.friction)
    (h9 : a.inv_mass = b.inv_mass) (h10 : a.inv_i = b.inv_i) : a = b := by
  cases a; cases b; simp_all

/-- The body is static: zero inverse mass and zero inverse inertia. -/
def StaticBody (b : Body) : Prop := b.inv_mass = 0 ∧ b.inv_i = 0

/-- A static body at rest, as produced by Body::from_def with mass none. -/
def StaticRest (b : Body) : Prop :=
  StaticBody b ∧ b.velocity = ⟨0, 0⟩ ∧ b.angular_velocity = 0

theorem preStepContact_static1 (invDt : Scalar) (cfg : WorldConfig)
    (st : Body × Body) (c : Contact) (h : StaticBody st.1) :
    (Arbiter.preStepContact invDt cfg st c).2.1 = st.1 := by
  obtain ⟨hm, hi⟩ := h
  unfold Arbiter.preStepContact
  by_cases hacc : cfg.accumulate_impulses <;>
    simp [hacc, hm, hi, Vec2.smul_def, Vec2.sub_def]
  all_goals exact Body.eq_of_fields rfl rfl rfl rfl rfl rfl rfl rfl hm.symm hi.symm

theorem preStepContact_static2 (invDt : Scalar) (cfg : WorldConfig)
    (st : Body × Body) (c : Contact) (h : StaticBody st.2) :
    (Arbiter.preStepContact invDt cfg st c).2.2 = st.2 := by
  obtain ⟨hm, hi⟩ := h
  unfold Arbiter.preStepContact
  by_cases hacc : cfg.accumulate_impulses <;>
    simp [hacc, hm, hi, Vec2.smul_def, Vec2.add_def]
  all_goals exact Body.eq_of_fields rfl rfl rfl rfl rfl rfl rfl rfl hm.symm hi.symm

theorem applyImpulseContact_static1 (cfg : WorldConfig) (friction : Scalar)
    (st : Body × Body) (c : Contact) (h : StaticBody st.1) :
    (Arbiter.applyImpulseContact cfg friction st c).2.1 = st.1 := by
  obtain ⟨hm, hi⟩ := h
  unfold Arbiter.applyImpulseContact
  by_cases hacc : cfg.accumulate_impulses <;>
    simp [hacc, hm, hi, Vec2.smul_def, Vec2.sub_def]
  all_goals exact Body.eq_of_fields rfl rfl rfl rfl rfl rfl rfl rfl hm.symm hi.symm

theorem applyImpulseContact_static2 (cfg : WorldConfig) (friction : Scalar)
    (st : Body × Body) (c : Contact) (h : StaticBody st.2) :
    (Arbiter.applyImpulseContact cfg friction st c).2.2 = st.2 := by
  obtain ⟨hm, hi⟩ := h
  unfold Arbiter.applyImpulseContact
  by_cases hacc : cfg.accumulate_impulses <;>
    simp [hacc, hm, hi, Vec2.smul_def, Vec2.add_def]
  all_goals exact Body.eq_of_fields rfl rfl rfl rfl rfl rfl rfl rfl hm.symm hi.symm

theorem foldl_contacts_static {α : Type}
    (g : (List Contact × Body × Body) → α → List Contact × Body × Body)
    (hg1 : ∀ st a, StaticBody st.2.1 → (g st a).2.1 = st.2.1)
    (hg2 : ∀ st a, StaticBody st.2.2 → (g st a).2.2 = st.2.2)
    (l : List α) :
    ∀ st : List Contact × Body × Body,
      (StaticBody st.2.1 → (l.foldl g st).2.1 = st.2.1) ∧
        (StaticBody st.2.2 → (l.foldl g st).2.2 = st.2.2) := by
  induction l with
  | nil => exact fun st => ⟨fun _ => rfl, fun _ => rfl⟩
  | cons x xs ih =>
    intro st
    constructor
    · intro hs
      have h1 := hg1 st x hs
      have := (ih (g st x)).1 (h1 ▸ hs)
      rw [List.foldl_cons, this, h1]
    · intro hs
      have h2 := hg2 st x hs
      have := (ih (g st x)).2 (h2 ▸ hs)
      rw [List.foldl_cons, this, h2]

theorem arbPreStep_static1 (arb : Arbiter) (invDt : Scalar) (cfg : WorldConfig)
    (b1 b2 : Body) (h : StaticBody b1) :
    (arb.preStep invDt cfg b1 b2).2.1 = b1 := by
  unfold Arbiter.preStep
  exact (foldl_contacts_static (Arbiter.preStepFold invDt cfg)
    (fun st a hs => preStepContact_static1 invDt cfg (st.2.1, st.2.2) a hs)
    (fun st a hs => preStepContact_static2 invDt cfg (st.2.1, st.2.2) a hs)
    (arb.contacts.take arb.numContacts) ([], b1, b2)).1 h

theorem arbPreStep_static2 (arb : Arbiter) (invDt : Scalar) (cfg : WorldConfig)
    (b1 b2 : Body) (h : StaticBody b2) :
    (arb.preStep invDt cfg b1 b2).2.2 = b2 := by
  unfold Arbiter.preStep
  exact (foldl_contacts_static (Arbiter.preStepFold invDt cfg)
    (fun st a hs => preStepContact_static1 invDt cfg (st.2.1, st.2.2) a hs)
    (fun st a hs => preStepContact_static2 invDt cfg (st.2.1, st.2.2) a hs)
    (arb.contacts.take arb.numContacts) ([], b1, b2)).2 h

theorem arbApplyImpulse_static1 (arb : Arbiter) (cfg : WorldConfig)
    (b1 b2 : Body) (h : StaticBody b1) :
    (arb.applyImpulse cfg b1 b2).2.1 = b1 := by
  unfold Arbiter.applyImpulse
  exact (foldl_contacts_static (Arbiter.applyImpulseFold cfg arb.friction)
    (fun st a hs => applyImpulseContact_static1 cfg arb.friction (st.2.1, st.2.2) a hs)
    (fun st a hs => applyImpulseContact_static2 cfg arb.friction (st.2.1, st.2.2) a hs)
    (arb.contacts.take arb.numContacts) ([], b1, b2)).1 h

theorem arbApplyImpulse_static2 (arb : Arbiter) (cfg : WorldConfig)
    (b1 b2 : Body) (h : StaticBody b2) :
    (arb.applyImpulse cfg b1 b2).2.2 = b2 := by
  unfold Arbiter.applyImpulse
  exact (foldl_contacts_static (Arbiter.applyImpulseFold cfg arb.friction)
    (fun st a hs => applyImpulseContact_static1 cfg arb.friction (st.2.1, st.2.2) a hs)
    (fun st a hs => applyImpulseContact_static2 cfg arb.friction (st.2.1, st.2.2) a hs)
    (arb.contacts.take arb.numContacts) ([], b1, b2)).2 h

theorem jointPreStep_static1 (j : Joint) (ops : FloatOps) (invDt : Scalar)
    (cfg : WorldConfig) (b1 b2 : Body) (h : StaticBody b1) :
    (j.preStep ops invDt cfg b1 b2).2.1 = b1 := by
  obtain ⟨hm, hi⟩ := h
  unfold Joint.preStep
  by_cases hw : cfg.warm_starting <;>
    simp [hw, hm, hi, Vec2.smul_def, Vec2.sub_def]
  all_goals exact Body.eq_of_fields rfl rfl rfl rfl rfl rfl rfl rfl hm.symm hi.symm

theorem jointPreStep_static2 (j : Joint) (ops : FloatOps) (invDt : Scalar)
    (cfg : WorldConfig) (b1 b2 : Body) (h : StaticBody b2) :
    (j.preStep ops invDt cfg b1 b2).2.2 = b2 := by
  obtain ⟨hm, hi⟩ := h
  unfold Joint.preStep
  by_cases hw : cfg.warm_starting <;>
    simp [hw, hm, hi, Vec2.smul_def, Vec2.add_def]
  all_goals exact Body.eq_of_fields rfl rfl rfl rfl rfl rfl rfl rfl hm.symm hi.symm

theorem jointApplyImpulse_static1 (j : Joint) (b1 b2 : Body)
    (h : StaticBody b1) : (j.applyImpulse b1 b2).2.1 = b1 := by
  obtain ⟨hm, hi⟩ := h
  unfold Joint.applyImpulse
  simp [hm, hi, Vec2.smul_def, Vec2.sub_def]
  all_goals exact Body.eq_of_fields rfl rfl rfl rfl rfl rfl rfl rfl hm.symm hi.symm

theorem jointApplyImpulse_static2 (j : Joint) (b1 b2 : Body)
    (h : StaticBody b2) : (j.applyImpulse b1 b2).2.2 = b2 := by
  obtain ⟨hm, hi⟩ := h
  unfold Joint.applyImpulse
  simp [hm, hi, Vec2.smul_def, Vec2.add_def]
  all_goals exact Body.eq_of_fields rfl rfl rfl rfl rfl rfl rfl rfl hm.symm hi.symm

/-- A pair update fixing static bodies leaves a static entry of the body
list unchanged through runPair. -/
theorem runPair_getD_static {γ : Type} (bodies : List Body) (a b i : ℕ)
    (upd : Body → Body → γ × Body × Body) (keep : γ)
    (h1 : ∀ b1 b2, StaticBody b1 → (upd b1 b2).2.1 = b1)
    (h2 : ∀ b1 b2, StaticBody b2 → (upd b1 b2).2.2 = b2)
    (hs : StaticBody (bodies.getD i Body.default0)) :
    (runPair bodies a b upd keep).2.getD i Body.default0 =
      bodies.getD i Body.default0 := by
  unfold runPair
  rcases hbm : bodiesTwoMut bodies a b with _ | p
  · rfl
  · obtain ⟨hab, ha, hb, hp⟩ := bodiesTwoMut_eq hbm
    subst hp
    rw [getD_set, getD_set]
    by_cases hbi : b = i
    · subst hbi
      rw [if_pos ⟨rfl, by simpa using hb⟩]
      simpa using h2 _ _ (by simpa using hs)
    · rw [if_neg (by simp [hbi])]
      by_cases hai : a = i
      · subst hai
        rw [if_pos ⟨rfl, ha⟩]
        simpa using h1 _ _ (by simpa using hs)
      · rw [if_neg (by simp [hai])]

theorem preStepArbs_getD_static (invDt : Scalar) (cfg : WorldConfig) (i : ℕ) :
    ∀ (arbs : List (ArbiterKey × Arbiter)) (bodies : List Body),
      StaticBody (bodies.getD i Body.default0) →
        (preStepArbs invDt cfg arbs bodies).2.getD i Body.default0 =
          bodies.getD i Body.default0 := by
  intro arbs
  induction arbs with
  | nil => exact fun bodies _ => rfl
  | cons ka rest ih =>
    intro bodies hs
    have h0 := runPair_getD_static bodies ka.2.body1 ka.2.body2 i _ ka.2
      (fun b1 b2 => arbPreStep_static1 ka.2 invDt cfg b1 b2)
      (fun b1 b2 => arbPreStep_static2 ka.2 invDt cfg b1 b2) hs
    rw [preStepArbs, ih _ (h0 ▸ hs), h0]

theorem preStepJoints_getD_static (ops : FloatOps) (invDt : Scalar)
    (cfg : WorldConfig) (i : ℕ) :
    ∀ (joints : List Joint) (bodies : List Body),
      StaticBody (bodies.getD i Body.default0) →
        (preStepJoints ops invDt cfg joints bodies).2.getD i Body.default0 =
          bodies.getD i Body.default0 := by
  intro joints
  induction joints with
  | nil => exact fun bodies _ => rfl
  | cons j rest ih =>
    intro bodies hs
    have h0 := runPair_getD_static bodies j.body1 j.body2 i _ j
      (fun b1 b2 => jointPreStep_static1 j ops invDt cfg b1 b2)
      (fun b1 b2 => jointPreStep_static2 j ops invDt cfg b1 b2) hs
    rw [preStepJoints, ih _ (h0 ▸ hs), h0]

theorem applyArbs_getD_static (cfg : WorldConfig) (i : ℕ) :
    ∀ (arbs : List (ArbiterKey × Arbiter)) (bodies : List Body),
      StaticBody (bodies.getD i Body.default0) →
        (applyArbs cfg arbs bodies).2.getD i Body.default0 =
          bodies.getD i Body.default0 := by
  intro arbs
  induction arbs with
  | nil => exact fun bodies _ => rfl
  | cons ka rest ih =>
    intro bodies hs
    have h0 := runPair_getD_static bodies
      (if ka.2.body1 ≤ ka.2.body2 then (ka.2.body1, ka.2.body2)
        else (ka.2.body2, ka.2.body1)).1
      (if ka.2.body1 ≤ ka.2.body2 then (ka.2.body1, ka.2.body2)
        else (ka.2.body2, ka.2.body1)).2 i _ ka.2
      (fun b1 b2 => arbApplyImpulse_static1 ka.2 cfg b1 b2)
      (fun b1 b2 => arbApplyImpulse_static2 ka.2 cfg b1 b2) hs
    have hs0 : StaticBody ((runPair bodies
        (if ka.2.body1 ≤ ka.2.body2 then (ka.2.body1, ka.2.body2)
          else (ka.2.body2, ka.2.body1)).1
        (if ka.2.body1 ≤ ka.2.body2 then (ka.2.body1, ka.2.body2)
          else (ka.2.body2, ka.2.body1)).2
        (fun b1 b2 => ka.2.applyImpulse cfg b1 b2) ka.2).2.getD i
          Body.default0) := by
      rw [h0]; exact hs
    show (applyArbs cfg rest _).2.getD i Body.default0 = _
    rw [ih _ hs0, h0]

theorem applyJoints_getD_static (i : ℕ) :
    ∀ (joints : List Joint) (bodies : List Body),
      StaticBody (bodies.getD i Body.default0) →
        (applyJoints joints bodies).2.getD i Body.default0 =
          bodies.getD i Body.default0 := by
  intro joints
  induction joints with
  | nil => exact fun bodies _ => rfl
  | cons j rest ih =>
    intro bodies hs
    have h0 := runPair_getD_static bodies j.body1 j.body2 i _ j
      (fun b1 b2 => jointApplyImpulse_static1 j b1 b2)
      (fun b1 b2 => jointApplyImpulse_static2 j b1 b2) hs
    rw [applyJoints, ih _ (h0 ▸ hs), h0]

theorem solveLoop_getD_static (cfg : WorldConfig) (i : ℕ) :
    ∀ (n : ℕ) (st : List Body × List (ArbiterKey × Arbiter) × List Joint),
      StaticBody (st.1.getD i Body.default0) →
        (solveLoop cfg n st).1.getD i Body.default0 =
          st.1.getD i Body.default0 := by
  intro n
  induction n with
  | zero => exact fun st _ => rfl
  | succ n ih =>
    intro st hs
    have h1 := applyArbs_getD_static cfg i st.2.1 st.1 hs
    have h2 := applyJoints_getD_static i st.2.2 (applyArbs cfg st.2.1 st.1).2
      (h1 ▸ hs)
    have h12 : (solveOnce cfg st).1.getD i Body.default0 =
        st.1.getD i Body.default0 := by
      unfold solveOnce
      rw [h2, h1]
    rw [solveLoop, ih (solveOnce cfg st) (h12 ▸ hs), h12]

theorem integrateForces_getD_static (gravity : Vec2) (dt : Scalar)
    (bodies : List Body) (i : ℕ)
    (hs : StaticBody (bodies.getD i Body.default0)) :
    (integrateForces gravity dt bodies).getD i Body.default0 =
      bodies.getD i Body.default0 := by
  by_cases hi : i < bodies.length
  · unfold integrateForces
    rw [getD_map _ _ _ hi _ Body.default0, if_pos hs.1]
  · rw [getD_eq_default _ _ _ (Nat.le_of_not_lt hi),
      getD_eq_default _ _ _ (by simpa [integrateForces] using Nat.le_of_not_lt hi)]

/-- Before velocity integration, the whole pipeline fixes a static body
exactly. -/
theorem stepCore_getD_static (ops : FloatOps) (dt : Scalar) (w : World) (i : ℕ)
    (hs : StaticBody (w.bodies.getD i Body.default0)) :
    (stepCore ops dt w).1.getD i Body.default0 =
      w.bodies.getD i Body.default0 := by
  have h1 := integrateForces_getD_static w.gravity dt w.bodies i hs
  have hs1 : StaticBody ((integrateForces w.gravity dt w.bodies).getD i
      Body.default0) := by rw [h1]; exact hs
  have h2 := preStepArbs_getD_static (if dt ≤ 0 then (0 : Scalar) else 1 / dt)
    w.config i (w.broadPhase ops) (integrateForces w.gravity dt w.bodies) hs1
  have hs2 : StaticBody (((preStepArbs (if dt ≤ 0 then (0 : Scalar) else 1 / dt)
      w.config (w.broadPhase ops) (integrateForces w.gravity dt w.bodies)).2).getD i
      Body.default0) := by rw [h2]; exact hs1
  have h3 := preStepJoints_getD_static ops (if dt ≤ 0 then (0 : Scalar) else 1 / dt)
    w.config i w.joints _ hs2
  have hs3 : StaticBody (((preStepJoints ops
      (if dt ≤ 0 then (0 : Scalar) else 1 / dt) w.config w.joints
      (preStepArbs (if dt ≤ 0 then (0 : Scalar) else 1 / dt) w.config
        (w.broadPhase ops) (integrateForces w.gravity dt w.bodies)).2).2).getD i
      Body.default0) := by rw [h3]; exact hs2
  have h4 := solveLoop_getD_static w.config i w.iterations
    ((preStepJoints ops (if dt ≤ 0 then (0 : Scalar) else 1 / dt) w.config w.joints
        (preStepArbs (if dt ≤ 0 then (0 : Scalar) else 1 / dt) w.config
          (w.broadPhase ops) (integrateForces w.gravity dt w.bodies)).2).2,
      (preStepArbs (if dt ≤ 0 then (0 : Scalar) else 1 / dt) w.config
        (w.broadPhase ops) (integrateForces w.gravity dt w.bodies)).1,
      (preStepJoints ops (if dt ≤ 0 then (0 : Scalar) else 1 / dt) w.config w.joints
        (preStepArbs (if dt ≤ 0 then (0 : Scalar) else 1 / dt) w.config
          (w.broadPhase ops) (integrateForces w.gravity dt w.bodies)).2).1) hs3
  exact h4.trans (h3.trans (h2.trans h1))

/-- One step maps a static body at rest to itself with only the force and
torque accumulators cleared. -/
theorem step_static_getD (ops : FloatOps) (dt : Scalar) (w : World) (i : ℕ)
    (hs : StaticRest (w.bodies.getD i Body.default0)) :
    (World.step ops dt w).bodies.getD i Body.default0 =
      { w.bodies.getD i Body.default0 with force := ⟨0, 0⟩, torque := 0 } := by
  obtain ⟨hsb, hv, hw⟩ := hs
  have hcore := stepCore_getD_static ops dt w i hsb
  have hlen : (stepCore ops dt w).1.length = w.bodies.length :=
    (stepCore_onlyVelL ops dt w).1
  by_cases hi : i < w.bodies.length
  · show (integrateVelocities dt (stepCore ops dt w).1).getD i Body.default0 = _
    unfold integrateVelocities
    rw [getD_map _ _ _ (hlen ▸ hi) _ Body.default0, hcore]
    refine Body.eq_of_fields ?_ ?_ rfl rfl rfl rfl rfl rfl rfl rfl
    · show (w.bodies.getD i Body.default0).position +
          dt * (w.bodies.getD i Body.default0).velocity =
        (w.bodies.getD i Body.default0).position
      rw [hv]
      simp [Vec2.smul_def, Vec2.add_def]
    · show (w.bodies.getD i Body.default0).rotation +
          dt * (w.bodies.getD i Body.default0).angular_velocity =
        (w.bodies.getD i Body.default0).rotation
      rw [hw]
      simp
  · have hi' := Nat.le_of_not_lt hi
    show (integrateVelocities dt (stepCore ops dt w).1).getD i Body.default0 = _
    rw [getD_eq_default _ _ _ (by simpa [integrateVelocities, hlen] using hi'),
      getD_eq_default _ _ _ hi']
    simp [Body.default0]

/-- At dt = 0 the integrate-velocities loop only clears the force and
torque accumulators. -/
theorem integrateVelocities_zero (l : List Body) :
    integrateVelocities 0 l =
      l.map fun b => { b with force := (⟨0, 0⟩ : Vec2), torque := 0 } := by
  unfold integrateVelocities
  apply List.map_congr_left
  intro b _
  exact Body.eq_of_fields (by simp [Vec2.smul_def, Vec2.add_def]) (by simp)
    rfl rfl rfl rfl rfl rfl rfl rfl

theorem step_bodies_length (ops : FloatOps) (dt : Scalar) (w : World) :
    (World.step ops dt w).bodies.length = w.bodies.length := by
  show (integrateVelocities dt (stepCore ops dt w).1).length = w.bodies.length
  rw [integrateVelocities, List.length_map]
  exact (stepCore_onlyVelL ops dt w).1

/-- Claim C10: one step never changes a body's width, friction, inverse
mass, or inverse inertia: the whole pipeline writes only position,
rotation, velocity, angular velocity, force, and torque. -/
theorem c10_step_preserves_shape (ops : FloatOps) (dt : Scalar) (w : World) (i : ℕ) :
    ((World.step ops dt w).bodies.getD i Body.default0).width =
        (w.bodies.getD i Body.default0).width ∧
      ((World.step ops dt w).bodies.getD i Body.default0).friction =
        (w.bodies.getD i Body.default0).friction ∧
      ((World.step ops dt w).bodies.getD i Body.default0).inv_mass =
        (w.bodies.getD i Body.default0).inv_mass ∧
      ((World.step ops dt w).bodies.getD i Body.default0).inv_i =
        (w.bodies.getD i Body.default0).inv_i := by
  by_cases hi : i < w.bodies.length
  · have hov := (stepCore_onlyVelL ops dt w).2 i hi
    have hlen := (stepCore_onlyVelL ops dt w).1
    have hstep : (World.step ops dt w).bodies.getD i Body.default0 =
        (fun b => { b with
            position := b.position + dt * b.velocity
            rotation := b.rotation + dt * b.angular_velocity
            force := (⟨0, 0⟩ : Vec2)
            torque := 0 }) ((stepCore ops dt w).1.getD i Body.default0) := by
      show (integrateVelocities dt (stepCore ops dt w).1).getD i Body.default0 = _
      rw [integrateVelocities, getD_map _ _ _ (hlen ▸ hi) _ Body.default0]
    rw [hstep]
    obtain ⟨_, _, _, _, hw, hfr, hm, hii⟩ := hov
    exact ⟨hw, hfr, hm, hii⟩
  · have hge := Nat.le_of_not_lt hi
    rw [getD_eq_default _ _ _ ((step_bodies_length ops dt w) ▸ hge),
      getD_eq_default _ _ _ hge]
    exact ⟨rfl, rfl, rfl, rfl⟩

/-- Claim C1 (amended): step with dt = 0 performs no position or rotation
integration: every body's position and rotation are unchanged.  Broad
phase still runs and solver impulses may change velocities (see the
counterexample theorem). -/
theorem c1_zero_dt_preserves_pose (ops : FloatOps) (w : World) (i : ℕ) :
    ((World.step ops 0 w).bodies.getD i Body.default0).position =
        (w.bodies.getD i Body.default0).position ∧
      ((World.step ops 0 w).bodies.getD i Body.default0).rotation =
        (w.bodies.getD i Body.default0).rotation := by
  by_cases hi : i < w.bodies.length
  · have hov := (stepCore_onlyVelL ops 0 w).2 i hi
    have hlen := (stepCore_onlyVelL ops 0 w).1
    have hstep : (World.step ops 0 w).bodies.getD i Body.default0 =
        (fun b => { b with force := (⟨0, 0⟩ : Vec2), torque := 0 })
          ((stepCore ops 0 w).1.getD i Body.default0) := by
      show (integrateVelocities 0 (stepCore ops 0 w).1).getD i Body.default0 = _
      rw [integrateVelocities_zero, getD_map _ _ _ (hlen ▸ hi) _ Body.default0]
    rw [hstep]
    exact ⟨hov.1, hov.2.1⟩
  · have hge := Nat.le_of_not_lt hi
    rw [getD_eq_default _ _ _ ((step_bodies_length ops 0 w) ▸ hge),
      getD_eq_default _ _ _ hge]
    exact ⟨rfl, rfl⟩

/-- A body built from a static definition is a static body at rest. -/
theorem from_def_none_staticRest (bd : BodyDef) (h : bd.mass = none) :
    StaticRest (Body.from_def bd) := by
  unfold Body.from_def StaticRest StaticBody
  rw [h]
  exact ⟨⟨rfl, rfl⟩, rfl, rfl⟩

/-- Iterating step over any list of time deltas fixes the position,
rotation, velocity, and angular velocity of a static body at rest. -/
theorem steps_static_aux (ops : FloatOps) (dts : List Scalar) :
    ∀ (w : World) (i : ℕ), StaticRest (w.bodies.getD i Body.default0) →
      ((dts.foldl (fun ww dt => World.step ops dt ww) w).bodies.getD i
            Body.default0).position =
          (w.bodies.getD i Body.default0).position ∧
        ((dts.foldl (fun ww dt => World.step ops dt ww) w).bodies.getD i
              Body.default0).rotation =
            (w.bodies.getD i Body.default0).rotation ∧
          ((dts.foldl (fun ww dt => World.step ops dt ww) w).bodies.getD i
                Body.default0).velocity =
              (w.bodies.getD i Body.default0).velocity ∧
            ((dts.foldl (fun ww dt => World.step ops dt ww) w).bodies.getD i
                  Body.default0).angular_velocity =
                (w.bodies.getD i Body.default0).angular_velocity := by
  induction dts with
  | nil => exact fun w i _ => ⟨rfl, rfl, rfl, rfl⟩
  | cons dt rest ih =>
    intro w i hs
    have hone := step_static_getD ops dt w i hs
    have hs' : StaticRest ((World.step ops dt w).bodies.getD i Body.default0) := by
      rw [hone]
      exact ⟨hs.1, hs.2⟩
    have hrest := ih (World.step ops dt w) i hs'
    rw [List.foldl_cons]
    refine ⟨?_, ?_, ?_, ?_⟩
    · rw [hrest.1, hone]
    · rw [hrest.2.1, hone]
    · rw [hrest.2.2.1, hone]
    · rw [hrest.2.2.2, hone]

/-- Claim C2: a body created from a definition with mass = none (inverse
mass and inverse inertia both zero) keeps its creation-time position,
rotation, and (linear and angular) velocity across any number of step
calls with any time deltas, in any world containing it. -/
theorem c2_static_bodies_never_move (ops : FloatOps) (dts : List Scalar)
    (w : World) (i : ℕ) (bd : BodyDef) (hmass : bd.mass = none)
    (hbody : w.bodies.getD i Body.default0 = Body.from_def bd) :
    ((dts.foldl (fun ww dt => World.step ops dt ww) w).bodies.getD i
          Body.default0).position = bd.position ∧
      ((dts.foldl (fun ww dt => World.step ops dt ww) w).bodies.getD i
            Body.default0).rotation = bd.rotation ∧
        ((dts.foldl (fun ww dt => World.step ops dt ww) w).bodies.getD i
              Body.default0).velocity = (⟨0, 0⟩ : Vec2) ∧
          ((dts.foldl (fun ww dt => World.step ops dt ww) w).bodies.getD i
                Body.default0).angular_velocity = 0 := by
  have hsr : StaticRest (w.bodies.getD i Body.default0) := by
    rw [hbody]
    exact from_def_none_staticRest bd hmass
  have haux := steps_static_aux ops dts w i hsr
  rw [hbody] at haux
  exact ⟨haux.1, haux.2.1, haux.2.2.1, haux.2.2.2⟩

/-- Claim C8: after any step, every body's accumulated force is (0, 0)
and its accumulated torque is 0: the integrate-velocities loop clears the
accumulators of every body unconditionally. -/
theorem c8_force_reset (ops : FloatOps) (dt : Scalar) (w : World) :
    ∀ b ∈ (World.step ops dt w).bodies,
      b.force = (⟨0, 0⟩ : Vec2) ∧ b.torque = 0 := by
  intro b hb
  have hrw : (World.step ops dt w).bodies =
      integrateVelocities dt (stepCore ops dt w).1 := rfl
  rw [hrw, integrateVelocities, List.mem_map] at hb
  obtain ⟨a, _, rfl⟩ := hb
  exact ⟨rfl, rfl⟩

/-- Claim C3: inverting a singular or near-singular 2x2 matrix
(|det| <= f32::EPSILON) makes the assertion in Mat22::invert fire, and in
particular the effective mass matrix K assembled by Joint::pre_step for a
joint with zero softness between two static bodies always fails this
assertion (K is the zero matrix). -/
theorem c3_invert_fails_fast :
    (∀ m : Mat22, |m.det| ≤ f32Epsilon → ¬ m.invertOk) ∧
      (∀ (j : Joint) (b1 b2 : Body) (r1 r2 : Vec2),
        StaticBody b1 → StaticBody b2 → j.softness = 0 →
          ¬ (j.kMatrix b1 b2 r1 r2).invertOk) := by
  constructor
  · intro m h hok
    exact absurd h (not_le.mpr hok)
  · intro j b1 b2 r1 r2 h1 h2 hsoft hok
    have hk : (j.kMatrix b1 b2 r1 r2).det = 0 := by
      unfold Joint.kMatrix Mat22.det
      simp [h1.1, h1.2, h2.1, h2.2, hsoft, Mat22.addm_def, Vec2.add_def]
    rw [Mat22.invertOk, hk] at hok
    simp only [abs_zero] at hok
    exact absurd hok (not_lt.mpr (by norm_num [f32Epsilon]))

/-- Claim C4: whenever one of the four computed face separations is
positive (the boxes do not overlap along that face axis), collide returns
no contacts via its early-out tests. -/
theorem c4_separated_no_contacts (ops : FloatOps) (bodyA bodyB : Body)
    (h : (collideSetup ops bodyA bodyB).faceA.x > 0 ∨
      (collideSetup ops bodyA bodyB).faceA.y > 0 ∨
      (collideSetup ops bodyA bodyB).faceB.x > 0 ∨
      (collideSetup ops bodyA bodyB).faceB.y > 0) :
    collide ops bodyA bodyB = [] := by
  unfold collide
  by_cases hA : (collideSetup ops bodyA bodyB).faceA.x > 0 ∨
      (collideSetup ops bodyA bodyB).faceA.y > 0
  · rw [if_pos hA]
  · rw [if_neg hA]
    have hB : (collideSetup ops bodyA bodyB).faceB.x > 0 ∨
        (collideSetup ops bodyA bodyB).faceB.y > 0 := by
      rcases h with h | h | h | h
      · exact absurd (Or.inl h) hA
      · exact absurd (Or.inr h) hA
      · exact Or.inl h
      · exact Or.inr h
    rw [if_pos hB]

/-- Claim C6: packing any feature pair into its 32-bit key and unpacking
it reproduces the feature pair exactly. -/
theorem c6_feature_pair_roundtrip (fp : FeaturePair) :
    FeaturePair.from_key fp.key = fp := by
  obtain ⟨a, b, c, d⟩ := fp
  cases a <;> cases b <;> cases c <;> cases d <;> rfl

/-- With no arbiters and no joints, the solver loop leaves the bodies
unchanged. -/
theorem solveLoop_empty (cfg : WorldConfig) :
    ∀ (n : ℕ) (bodies : List Body),
      solveLoop cfg n (bodies, [], []) = (bodies, [], []) := by
  intro n
  induction n with
  | zero => exact fun bodies => rfl
  | succ n ih => exact fun bodies => ih bodies

/-- World holding exactly one body built from the given definition, with
no joints and no arbiters. -/
def singleBodyWorld (g : Vec2) (it : ℕ) (cfg : WorldConfig) (bd : BodyDef) : World where
  gravity := g
  iterations := it
  config := cfg
  bodies := [Body.from_def bd]
  joints := []
  arbiters := []

/-- Claim C7: a single dynamic body of mass m > 0 with zero initial
velocity and zero accumulated force and torque, alone in a world with
gravity g and no contacts or joints, has velocity dt * g and position
p0 + (dt * dt) * g after one step: semi-implicit Euler integrates the
velocity first and then the position from the new velocity. -/
theorem c7_gravity_integration (ops : FloatOps) (g : Vec2) (it : ℕ)
    (cfg : WorldConfig) (wd p0 : Vec2) (rot fr m dt : Scalar) (hm : 0 < m) :
    ((World.step ops dt
          (singleBodyWorld g it cfg ⟨wd, p0, rot, fr, some m⟩)).bodies.getD 0
        Body.default0).velocity = dt * g ∧
      ((World.step ops dt
            (singleBodyWorld g it cfg ⟨wd, p0, rot, fr, some m⟩)).bodies.getD 0
          Body.default0).position = p0 + (dt * dt) * g := by
  have hinv : (1 : Scalar) / m ≠ 0 := one_div_ne_zero (ne_of_gt hm)
  have hb1 : integrateForces g dt [Body.from_def ⟨wd, p0, rot, fr, some m⟩] =
      [{ Body.from_def ⟨wd, p0, rot, fr, some m⟩ with velocity := dt * g }] := by
    unfold integrateForces Body.from_def
    simp only [List.map_cons, List.map_nil]
    rw [if_neg hinv]
    refine congrArg (fun b => [b]) ?_
    refine Body.eq_of_fields rfl rfl ?_ ?_ rfl rfl rfl rfl rfl rfl
    · show (⟨0, 0⟩ : Vec2) + dt * (g + (1 / m) * (⟨0, 0⟩ : Vec2)) = dt * g
      refine congrArg₂ Vec2.mk ?_ ?_ <;> simp [Vec2.add_def, Vec2.smul_def]
    · show (0 : Scalar) + dt * (1 / (m * (wd.x * wd.x + wd.y * wd.y) / 12)) * 0 = 0
      ring
  have hcore : (stepCore ops dt
      (singleBodyWorld g it cfg ⟨wd, p0, rot, fr, some m⟩)).1 =
      [{ Body.from_def ⟨wd, p0, rot, fr, some m⟩ with velocity := dt * g }] :=
    calc (stepCore ops dt (singleBodyWorld g it cfg ⟨wd, p0, rot, fr, some m⟩)).1
        = (solveLoop cfg it
            (integrateForces g dt [Body.from_def ⟨wd, p0, rot, fr, some m⟩],
              [], [])).1 := rfl
      _ = integrateForces g dt [Body.from_def ⟨wd, p0, rot, fr, some m⟩] := by
            rw [solveLoop_empty]
      _ = [{ Body.from_def ⟨wd, p0, rot, fr, some m⟩ with velocity := dt * g }] := hb1
  constructor
  · show ((integrateVelocities dt (stepCore ops dt
        (singleBodyWorld g it cfg ⟨wd, p0, rot, fr, some m⟩)).1).getD 0
      Body.default0).velocity = dt * g
    rw [hcore]
    rfl
  · show ((integrateVelocities dt (stepCore ops dt
        (singleBodyWorld g it cfg ⟨wd, p0, rot, fr, some m⟩)).1).getD 0
      Body.default0).position = p0 + (dt * dt) * g
    rw [hcore]
    show p0 + dt * (dt * g) = p0 + (dt * dt) * g
    refine congrArg₂ Vec2.mk ?_ ?_ <;> simp [Vec2.add_def, Vec2.smul_def] <;> ring

/-! Concrete instances.  Every body below has rotation 0 and friction 0
or squared-exact friction, so the transcendental model opsRef is exact at
every point where it is applied. -/

/-- Two overlapping 2x2 dynamic boxes at (0, 0) and (1/2, 0); the first
one is moving away from the second with velocity (-1, 0). -/
def wC1a : World where
  gravity := ⟨0, 0⟩
  iterations := 1
  config := WorldConfig.default0
  bodies :=
    [{ Body.from_def ⟨⟨2, 2⟩, ⟨0, 0⟩, 0, 0, some 1⟩ with velocity := ⟨-1, 0⟩ },
      Body.from_def ⟨⟨2, 2⟩, ⟨1/2, 0⟩, 0, 0, some 1⟩]
  joints := []
  arbiters := []

/-- A single dynamic body under gravity. -/
def wC1b : World :=
  singleBodyWorld ⟨0, -10⟩ 10 WorldConfig.default0 ⟨⟨1, 1⟩, ⟨0, 2⟩, 0, 2/10, some 1⟩

section ConcreteEvaluation

attribute [local semireducible] Rat.mul Rat.inv Rat.add Rat.sub

set_option maxRecDepth 100000

/-- Claim C1 (counterexample): step with dt = 0 is not a no-op on body
state, and broad phase is not skipped.  On wC1a, step(0) changes the
velocity of body 0 (the solver applies contact impulses even at dt = 0)
and creates an arbiter for the overlapping pair.  On wC1b, step(-1/10)
changes both the velocity and the position of the body (dt multiplies the
integration increments directly; only the inverse dt is zeroed). -/
theorem c1_counterexample :
    ((World.step opsRef 0 wC1a).bodies.getD 0 Body.default0).velocity ≠
        (wC1a.bodies.getD 0 Body.default0).velocity ∧
      wC1a.arbiters.length = 0 ∧
      (World.step opsRef 0 wC1a).arbiters.length = 1 ∧
      ((World.step opsRef (-1/10) wC1b).bodies.getD 0 Body.default0).velocity ≠
        (wC1b.bodies.getD 0 Body.default0).velocity ∧
      ((World.step opsRef (-1/10) wC1b).bodies.getD 0 Body.default0).position ≠
        (wC1b.bodies.getD 0 Body.default0).position := by
  refine ⟨by decide, rfl, by decide, by decide, by decide⟩

/-- The two 2x2 axis-aligned boxes of the spec's overlap example,
centered at (0, 0) and (1/2, 0). -/
def c5BodyA : Body := Body.from_def ⟨⟨2, 2⟩, ⟨0, 0⟩, 0, 2/10, some 1⟩

def c5BodyB : Body := Body.from_def ⟨⟨2, 2⟩, ⟨1/2, 0⟩, 0, 2/10, some 1⟩

/-- Claim C5: the two overlapping 2x2 boxes centered at (0, 0) and
(1/2, 0) produce n >= 1 contacts (exactly 2), and every returned contact
has a unit-length normal (dot product with itself equal to 1) and a
non-positive separation. -/
theorem c5_overlapping_boxes_contacts :
    1 ≤ (collide opsRef c5BodyA c5BodyB).length ∧
      (collide opsRef c5BodyA c5BodyB).length = 2 ∧
      ((collide opsRef c5BodyA c5BodyB).all fun c =>
        decide (c.normal.dot c.normal = 1) && decide (c.separation ≤ 0)) = true := by
  refine ⟨by decide, by decide, by decide⟩

/-- Claim C2 (witness): a static box at (0, 5) in a world with gravity,
stepped once by 1/10, keeps its creation pose and zero velocity. -/
theorem c2_witness :
    ((⟨⟨1, 1⟩, ⟨0, 5⟩, 0, 2/10, none⟩ : BodyDef).mass = none ∧
        (singleBodyWorld ⟨0, -10⟩ 10 WorldConfig.default0
            ⟨⟨1, 1⟩, ⟨0, 5⟩, 0, 2/10, none⟩).bodies.getD 0 Body.default0 =
          Body.from_def ⟨⟨1, 1⟩, ⟨0, 5⟩, 0, 2/10, none⟩) ∧
      ((([1/10] : List Scalar).foldl (fun ww dt => World.step opsRef dt ww)
            (singleBodyWorld ⟨0, -10⟩ 10 WorldConfig.default0
              ⟨⟨1, 1⟩, ⟨0, 5⟩, 0, 2/10, none⟩)).bodies.getD 0
          Body.default0).position = (⟨0, 5⟩ : Vec2) :=
  ⟨⟨rfl, rfl⟩,
    (c2_static_bodies_never_move opsRef [1/10]
      (singleBodyWorld ⟨0, -10⟩ 10 WorldConfig.default0
        ⟨⟨1, 1⟩, ⟨0, 5⟩, 0, 2/10, none⟩) 0
      ⟨⟨1, 1⟩, ⟨0, 5⟩, 0, 2/10, none⟩ rfl rfl).1⟩

/-- A joint record used to witness the degenerate-K case of claim C3. -/
def jointC3 : Joint where
  m := ⟨⟨0, 0⟩, ⟨0, 0⟩⟩
  local_anchor1 := ⟨0, 0⟩
  local_anchor2 := ⟨0, 0⟩
  r1 := ⟨0, 0⟩
  r2 := ⟨0, 0⟩
  bias := ⟨0, 0⟩
  p := ⟨0, 0⟩
  body1 := 0
  body2 := 1
  bias_factor := 2/10
  softness := 0

/-- Claim C3 (witness): the zero matrix fails the inversion assertion,
and the effective mass matrix of a rigid joint between two static bodies
fails it as well. -/
theorem c3_witness :
    (|(Mat22.mk ⟨0, 0⟩ ⟨0, 0⟩).det| ≤ f32Epsilon ∧
        ¬ (Mat22.mk ⟨0, 0⟩ ⟨0, 0⟩).invertOk) ∧
      (StaticBody Body.default0 ∧ jointC3.softness = 0 ∧
        ¬ (jointC3.kMatrix Body.default0 Body.default0 ⟨1, 0⟩ ⟨0, 1⟩).invertOk) :=
  ⟨⟨by norm_num [Mat22.det, f32Epsilon],
      c3_invert_fails_fast.1 (Mat22.mk ⟨0, 0⟩ ⟨0, 0⟩)
        (by norm_num [Mat22.det, f32Epsilon])⟩,
    ⟨⟨rfl, rfl⟩, rfl,
      c3_invert_fails_fast.2 jointC3 Body.default0 Body.default0 ⟨1, 0⟩ ⟨0, 1⟩
        ⟨rfl, rfl⟩ ⟨rfl, rfl⟩ rfl⟩⟩

/-- Two separated 2x2 boxes used to witness claim C4. -/
def c4BodyA : Body := Body.from_def ⟨⟨2, 2⟩, ⟨0, 0⟩, 0, 2/10, some 1⟩

def c4BodyB : Body := Body.from_def ⟨⟨2, 2⟩, ⟨10, 0⟩, 0, 2/10, some 1⟩

/-- Claim C4 (witness): boxes at distance 10 have positive face
separation along the x axis of box A and collide yields no contacts. -/
theorem c4_witness :
    (collideSetup opsRef c4BodyA c4BodyB).faceA.x > 0 ∧
      collide opsRef c4BodyA c4BodyB = [] :=
  ⟨by decide,
    c4_separated_no_contacts opsRef c4BodyA c4BodyB (Or.inl (by decide))⟩

/-- Claim C7 (witness): mass 2, dt = 1/10, gravity (0, -10) reproduces
the repository's gravity-integration test values. -/
theorem c7_witness :
    (0 : Scalar) < 2 ∧
      (((World.step opsRef (1/10)
            (singleBodyWorld ⟨0, -10⟩ 10 WorldConfig.default0
              ⟨⟨1, 1⟩, ⟨0, 0⟩, 0, 2/10, some 2⟩)).bodies.getD 0
          Body.default0).velocity = (1/10 : Scalar) * (⟨0, -10⟩ : Vec2) ∧
        ((World.step opsRef (1/10)
              (singleBodyWorld ⟨0, -10⟩ 10 WorldConfig.default0
                ⟨⟨1, 1⟩, ⟨0, 0⟩, 0, 2/10, some 2⟩)).bodies.getD 0
            Body.default0).position =
          (⟨0, 0⟩ : Vec2) + ((1/10 : Scalar) * (1/10 : Scalar)) * (⟨0, -10⟩ : Vec2)) :=
  ⟨by decide,
    c7_gravity_integration opsRef ⟨0, -10⟩ 10 WorldConfig.default0
      ⟨1, 1⟩ ⟨0, 0⟩ 0 (2/10) 2 (1/10) (by decide)⟩

/-- World with one dynamic body carrying accumulated force (3, 4) and
torque 2, used to witness claim C8. -/
def wC8 : World where
  gravity := ⟨0, 0⟩
  iterations := 10
  config := WorldConfig.default0
  bodies := [{ Body.from_def ⟨⟨1, 1⟩, ⟨0, 0⟩, 0, 2/10, some 1⟩ with
    force := ⟨3, 4⟩, torque := 2 }]
  joints := []
  arbiters := []

/-- Claim C8 (witness): after a step, the body that had force (3, 4) and
torque 2 accumulated has force (0, 0) and torque 0. -/
theorem c8_witness :
    ((World.step opsRef (1/10) wC8).bodies.getD 0 Body.default0).force =
        (⟨0, 0⟩ : Vec2) ∧
      ((World.step opsRef (1/10) wC8).bodies.getD 0 Body.default0).torque = 0 :=
  c8_force_reset opsRef (1/10) wC8
    ((World.step opsRef (1/10) wC8).bodies.getD 0 Body.default0) (by decide)

end ConcreteEvaluation

/-- Claim C9: bodiesTwoMut called with two identical handles fails fast
(the assert fires, modelled as none); called with distinct in-bounds
handles it returns the bodies at the two indices in caller order. -/
theorem c9_bodies_two_mut :
    (∀ (bodies : List Body) (a : ℕ), bodiesTwoMut bodies a a = none) ∧
      (∀ (bodies : List Body) (a b : ℕ), a ≠ b →
        a < bodies.length → b < bodies.length →
          bodiesTwoMut bodies a b =
            some (bodies.getD a Body.default0, bodies.getD b Body.default0)) := by
  constructor
  · intro bodies a
    unfold bodiesTwoMut
    rw [if_pos rfl]
  · intro bodies a b hab ha hb
    unfold bodiesTwoMut
    rw [if_neg hab]
    rcases Nat.lt_or_ge a b with hlt | hge
    · have hle : a ≤ b := Nat.le_of_lt hlt
      simp only [hle, if_true]
      have ht : (bodies.take b)[a]? = some (bodies.getD a Body.default0) := by
        rw [List.getElem?_take_of_lt hlt, List.getElem?_eq_getElem ha]
        simp [List.getD_eq_getElem?_getD, List.getElem?_eq_getElem ha]
      have hd : (bodies.drop b)[0]? = some (bodies.getD b Body.default0) := by
        have hdrop := List.getElem?_drop bodies b 0
        rw [Nat.add_zero] at hdrop
        rw [hdrop, List.getElem?_eq_getElem hb]
        simp [List.getD_eq_getElem?_getD, List.getElem?_eq_getElem hb]
      rw [ht, hd]
      simp [hlt]
    · have hba : b < a := Nat.lt_of_le_of_ne hge (fun hc => hab hc.symm)
      have hle : ¬ a ≤ b := Nat.not_le.mpr hba
      simp only [hle, if_false]
      have ht : (bodies.take a)[b]? = some (bodies.getD b Body.default0) := by
        rw [List.getElem?_take_of_lt hba, List.getElem?_eq_getElem hb]
        simp [List.getD_eq_getElem?_getD, List.getElem?_eq_getElem hb]
      have hd : (bodies.drop a)[0]? = some (bodies.getD a Body.default0) := by
        have hdrop := List.getElem?_drop bodies a 0
        rw [Nat.add_zero] at hdrop
        rw [hdrop, List.getElem?_eq_getElem ha]
        simp [List.getD_eq_getElem?_getD, List.getElem?_eq_getElem ha]
      rw [ht, hd]
      have hnlt : ¬ a < b := Nat.not_lt.mpr (Nat.le_of_lt hba)
      simp [hnlt]

/-- Claim C9 (witness): on a concrete two-body list, identical handles
give none and distinct handles give the caller-order pair. -/
theorem c9_witness :
    bodiesTwoMut [Body.default0, { Body.default0 with torque := 1 }] 0 0 = none ∧
      ((0 : ℕ) ≠ 1 ∧
        bodiesTwoMut [Body.default0, { Body.default0 with torque := 1 }] 0 1 =
          some (Body.default0, { Body.default0 with torque := 1 })) ∧
      ((1 : ℕ) ≠ 0 ∧
        bodiesTwoMut [Body.default0, { Body.default0 with torque := 1 }] 1 0 =
          some ({ Body.default0 with torque := 1 }, Body.default0)) :=
  ⟨c9_bodies_two_mut.1 _ 0,
    ⟨by decide, c9_bodies_two_mut.2 _ 0 1 (by decide) (by decide) (by decide)⟩,
    ⟨by decide, c9_bodies_two_mut.2 _ 1 0 (by decide) (by decide) (by decide)⟩⟩

end Box2dLite